import Mathlib

/-!
# WasapiOut: device session and streaming state machine

A shallow embedding of `src/contrib/wasapiout/WasapiOut.cpp` (musikcube).

* The object's fields become the record `Session`.
* Every call into the platform audio API, every `Sleep`, every unlocked load of
  the shared transport state and every call of the buffer owner is appended to
  a chronological log of `Event`s.
* What the platform answers is given by a `Platform`: a family of answers
  indexed by the moment of the call, the moment being the length of the log.
  Since a run performs one call per moment, this covers every behaviour of
  the device.
* COM interface pointers are `Option Nat`: `none` is the null pointer.
* `UINT32`, `DWORD` and `WORD` arithmetic is arithmetic of `Nat` reduced modulo
  `2 ^ 32` or `2 ^ 16` where the source computes or converts.
* Dereferencing a null pointer and dividing by zero end a run as
  `Outcome.crashed`; a wait loop that has not ended when the fuel is used up
  ends as `Outcome.pending`.
-/

namespace WasapiOut

/-! ## Data model -/

/-- Transport state of the output (`StateStopped`, `StatePaused`, `StatePlaying`). -/
inductive TransportState where
  | StateStopped
  | StatePaused
  | StatePlaying
  deriving DecidableEq, Repr

open TransportState

/-- The fields of `WAVEFORMATEXTENSIBLE` that `Configure` writes. `SubFormat` is
`0` for the zeroed GUID and `1` for `KSDATAFORMAT_SUBTYPE_IEEE_FLOAT`. -/
structure WaveFormat where
  cbSize : Nat
  wFormatTag : Nat
  nChannels : Nat
  wBitsPerSample : Nat
  nSamplesPerSec : Nat
  wValidBitsPerSample : Nat
  nBlockAlign : Nat
  nAvgBytesPerSec : Nat
  dwChannelMask : Nat
  SubFormat : Nat
  deriving DecidableEq, Repr

/-- Result of `ZeroMemory(&waveFormat, sizeof(WAVEFORMATEXTENSIBLE))`. -/
def zeroFormat : WaveFormat :=
  ⟨0, 0, 0, 0, 0, 0, 0, 0, 0, 0⟩

/-- What `Play` reads of an `IBuffer`: `Samples()`, `Channels()`, `SampleRate()`. -/
structure Buffer where
  Samples : Int
  Channels : Int
  SampleRate : Int
  deriving DecidableEq, Repr

/-- The member variables of `WasapiOut`. -/
structure Session where
  enumerator : Option Nat
  device : Option Nat
  audioClient : Option Nat
  renderClient : Option Nat
  simpleAudioVolume : Option Nat
  audioStreamVolume : Option Nat
  audioClock : Option Nat
  outputBufferFrames : Nat
  state : TransportState
  latency : ℚ
  volume : ℚ
  waveFormat : WaveFormat
  deriving DecidableEq

/-- The services `Configure` asks the client for with `GetService`. -/
inductive Service where
  | IAudioRenderClient
  | ISimpleAudioVolume
  | IAudioStreamVolume
  | IAudioClock
  deriving DecidableEq, Repr

/-- One observable operation of a run. A handle argument is the interface the
method is called on. The level of `SetChannelVolume` is the `float` the source
passes, `none` when that is not a finite number. -/
inductive Event where
  | CoInitialize
  | CoCreateInstance (out : Option Nat)
  | GetDefaultAudioEndpoint (enumerator : Nat) (out : Option Nat)
  | Activate (device : Nat) (out : Option Nat)
  | IsFormatSupported (client : Nat) (wf : WaveFormat) (ok : Bool)
  | Initialize (client : Nat) (streamFlags : Nat) (hundredNanos : Int)
      (wf : WaveFormat) (ok : Bool)
  | GetBufferSize (client : Nat) (ok : Bool) (frames : Nat)
  | GetService (client : Nat) (which : Service) (out : Option Nat)
  | Start (client : Nat) (ok : Bool)
  | Stop (client : Nat)
  | Reset (client : Nat)
  | AddRef (handle : Nat)
  | Release (handle : Nat)
  | GetCurrentPadding (client : Nat) (queued : Nat)
  | Sleep (micros : Nat)
  | SleepMs (millis : Nat)
  | LoadState (seen : TransportState)
  | GetBuffer (sink : Nat) (frames : Nat) (ok : Bool)
  | Memcpy (bytes : Nat)
  | ReleaseBuffer (sink : Nat) (frames : Nat)
  | SetMasterVolume (handle : Nat) (level : ℚ)
  | SetMute (handle : Nat) (mute : Bool)
  | GetChannelCount (handle : Nat) (count : Nat)
  | SetChannelVolume (handle : Nat) (index : Nat) (level : Option ℚ)
  | OnBufferProcessed (buffer : Buffer)
  deriving DecidableEq

/-- The answers of the platform, indexed by the moment of the call.
`pointer t` is the interface pointer a creating call writes (`none`: the call
failed and wrote null, as COM prescribes); `hresult t` tells whether another
call returned `S_OK`; `bufferSize`, `padding` and `channelCount` are the
`UINT32` values written by `GetBufferSize`, `GetCurrentPadding` and
`GetChannelCount`; `control t` is a store into `state` made by the control
thread that an unlocked load at moment `t` observes. -/
structure Platform where
  pointer : Nat → Option Nat
  hresult : Nat → Bool
  bufferSize : Nat → Nat
  padding : Nat → Nat
  channelCount : Nat → Nat
  control : Nat → Option TransportState

/-- How a call ends. -/
inductive Outcome where
  | returned (value : Bool)
  | crashed
  | pending
  deriving DecidableEq, Repr

/-- A call's outcome with the session and the log it leaves. -/
structure Result where
  outcome : Outcome
  session : Session
  log : List Event

/-- The constructor `WasapiOut::WasapiOut()`. -/
def new : Session :=
  { enumerator := none, device := none, audioClient := none, renderClient := none,
    simpleAudioVolume := none, audioStreamVolume := none, audioClock := none,
    outputBufferFrames := 0, state := StateStopped, latency := 0, volume := 1,
    waveFormat := zeroFormat }

/-! ## Narrowing to `float` -/

/-- The number of doublings, at most `fuel`, that bring a rational below 1 up to
at least 1. -/
def doublings : Nat → ℚ → Nat
  | 0, _ => 0
  | fuel + 1, a => if 1 ≤ a then 0 else doublings fuel (2 * a) + 1

/-- The number of halvings, at most `fuel`, that bring a rational down below 2. -/
def halvings : Nat → ℚ → Nat
  | 0, _ => 0
  | fuel + 1, a => if a < 2 then 0 else halvings fuel (a / 2) + 1

/-- The binary exponent of the single-precision grid at `a ≥ 0`: the `e` with
`2 ^ e ≤ a < 2 ^ (e + 1)`, not below `-126` (subnormal numbers) and not above
`128` (where the grid ends). -/
def exponent (a : ℚ) : Int :=
  if 1 ≤ a then (halvings 128 a : Int) else -(doublings 126 a : Int)

/-- Rounding of a rational to the nearest integer, halves to the even one. -/
def roundHalfEven (x : ℚ) : Int :=
  if x - Int.floor x < 1 / 2 then Int.floor x
  else if 1 / 2 < x - Int.floor x then Int.floor x + 1
  else if Int.floor x % 2 = 0 then Int.floor x
  else Int.floor x + 1

/-- The conversion `(float) x` of a `double` in IEEE 754 arithmetic: `x` rounded
to 24 significant bits, to nearest, halves to even; `none` when the result is
not finite (magnitude `2 ^ 128` or more). -/
def toFloat (x : ℚ) : Option ℚ :=
  let a := |x|
  let ulp : ℚ := 2 ^ (exponent a - 23)
  let r := (roundHalfEven (a / ulp) : ℚ) * ulp
  if r < 2 ^ 128 then some (if 0 ≤ x then r else -r) else none

/-! ## Transport control -/

/-- The method `WasapiOut::Pause`. -/
def Pause (s : Session) (log : List Event) : Session × List Event :=
  let s1 := { s with state := StatePaused }
  match s1.audioClient with
  | some ac => (s1, log ++ [Event.Stop ac])
  | none => (s1, log)

/-- The method `WasapiOut::Resume`. The result of `Start` is not looked at. -/
def Resume (p : Platform) (s : Session) (log : List Event) : Session × List Event :=
  let s1 := { s with state := StatePlaying }
  match s1.audioClient with
  | some ac => (s1, log ++ [Event.Start ac (p.hresult log.length)])
  | none => (s1, log)

/-- The loop of `SetVolume` over the channels `i < count`, each call with
`(float) this->volume`. -/
def channelVolumes (sv : Nat) (v : ℚ) (count : Nat) : List Event :=
  (List.range count).map (fun i => Event.SetChannelVolume sv i (toFloat v))

/-- The method `WasapiOut::SetVolume`. -/
def SetVolume (p : Platform) (v : ℚ) (s : Session) (log : List Event) :
    Session × List Event :=
  let s1 := { s with volume := v }
  match s1.simpleAudioVolume with
  | some m =>
    let log1 := log ++ [Event.SetMasterVolume m 1, Event.SetMute m false]
    match s1.audioStreamVolume with
    | some sv =>
      let count := p.channelCount log1.length % 2 ^ 32
      (s1, log1 ++ [Event.GetChannelCount sv count] ++ channelVolumes sv s1.volume count)
    | none => (s1, log1)
  | none => (s1, log)

/-- The method `WasapiOut::GetVolume`. -/
def GetVolume (s : Session) : ℚ :=
  s.volume

/-- The method `WasapiOut::Stop`. -/
def Stop (p : Platform) (s : Session) (log : List Event) : Session × List Event :=
  let s1 := { s with state := StateStopped }
  match s1.audioClient with
  | some ac =>
    (s1, log ++ [Event.Stop ac, Event.Reset ac, Event.Start ac (p.hresult (log.length + 2))])
  | none => (s1, log)

/-- The events of one `if (this->h) { this->h->Release(); ... }` of `Reset`. -/
def releaseOf (h : Option Nat) : List Event :=
  match h with
  | some x => [Event.Release x]
  | none => []

/-- The events of the first block of `Reset`: stop and release the client. -/
def stopReleaseOf (h : Option Nat) : List Event :=
  match h with
  | some x => [Event.Stop x, Event.Release x]
  | none => []

/-- The method `WasapiOut::Reset`. -/
def Reset (s : Session) (log : List Event) : Session × List Event :=
  ({ s with
      audioClient := none, enumerator := none, device := none, renderClient := none,
      simpleAudioVolume := none, audioStreamVolume := none, audioClock := none,
      waveFormat := zeroFormat },
   log ++ stopReleaseOf s.audioClient ++ releaseOf s.enumerator ++ releaseOf s.device
     ++ releaseOf s.renderClient ++ releaseOf s.simpleAudioVolume
     ++ releaseOf s.audioStreamVolume ++ releaseOf s.audioClock)

/-- The method `WasapiOut::Latency`. -/
def Latency (s : Session) : ℚ :=
  s.latency

/-! ## Configuration -/

/-- Conversion of a signed integer to `UINT32` / `DWORD`. -/
def toUINT32 (x : Int) : Nat :=
  (x % 2 ^ 32).toNat

/-- Conversion of a signed integer to `WORD`. -/
def toWORD (x : Int) : Nat :=
  (x % 2 ^ 16).toNat

/-- The constant `MAX_BUFFERS_PER_OUTPUT`. -/
def MAX_BUFFERS_PER_OUTPUT : Int := 16

/-- The constant `AUDCLNT_STREAMFLAGS_AUTOCONVERTPCM`. -/
def AUDCLNT_STREAMFLAGS_AUTOCONVERTPCM : Nat := 0x80000000

/-- The constant `WAVE_FORMAT_EXTENSIBLE` (Windows SDK). -/
def WAVE_FORMAT_EXTENSIBLE : Nat := 0xFFFE

/-- The value of `sizeof(WAVEFORMATEXTENSIBLE)` (Windows SDK). -/
def sizeofWAVEFORMATEXTENSIBLE : Nat := 40

/-- The constant `SPEAKER_FRONT_LEFT` (Windows SDK). -/
def SPEAKER_FRONT_LEFT : Nat := 0x1
/-- The constant `SPEAKER_FRONT_RIGHT` (Windows SDK). -/
def SPEAKER_FRONT_RIGHT : Nat := 0x2
/-- The constant `SPEAKER_FRONT_CENTER` (Windows SDK). -/
def SPEAKER_FRONT_CENTER : Nat := 0x4
/-- The constant `SPEAKER_LOW_FREQUENCY` (Windows SDK). -/
def SPEAKER_LOW_FREQUENCY : Nat := 0x8
/-- The constant `SPEAKER_BACK_LEFT` (Windows SDK). -/
def SPEAKER_BACK_LEFT : Nat := 0x10
/-- The constant `SPEAKER_BACK_RIGHT` (Windows SDK). -/
def SPEAKER_BACK_RIGHT : Nat := 0x20

/-- The `switch (buffer->Channels())` of `Configure`. -/
def speakerConfig (channels : Int) : Nat :=
  if channels = 1 then SPEAKER_FRONT_CENTER
  else if channels = 2 then SPEAKER_FRONT_LEFT ||| SPEAKER_FRONT_RIGHT
  else if channels = 4 then
    SPEAKER_FRONT_LEFT ||| SPEAKER_FRONT_RIGHT ||| SPEAKER_BACK_LEFT ||| SPEAKER_BACK_RIGHT
  else if channels = 5 then
    SPEAKER_FRONT_LEFT ||| SPEAKER_FRONT_RIGHT ||| SPEAKER_FRONT_CENTER
      ||| SPEAKER_BACK_LEFT ||| SPEAKER_BACK_RIGHT
  else if channels = 6 then
    SPEAKER_FRONT_LEFT ||| SPEAKER_FRONT_RIGHT ||| SPEAKER_FRONT_CENTER
      ||| SPEAKER_LOW_FREQUENCY ||| SPEAKER_BACK_LEFT ||| SPEAKER_BACK_RIGHT
  else 0

/-- The descriptor `Configure` writes into `waveFormat` for a buffer. -/
def formatOf (b : Buffer) : WaveFormat :=
  let nChannels := toWORD b.Channels
  let wBitsPerSample := 8 * 4
  let nSamplesPerSec := toUINT32 b.SampleRate
  let nBlockAlign := ((wBitsPerSample / 8) * nChannels) % 2 ^ 16
  { cbSize := sizeofWAVEFORMATEXTENSIBLE
    wFormatTag := WAVE_FORMAT_EXTENSIBLE
    nChannels := nChannels
    wBitsPerSample := wBitsPerSample
    nSamplesPerSec := nSamplesPerSec
    wValidBitsPerSample := 8 * 4
    nBlockAlign := nBlockAlign
    nAvgBytesPerSec := (nSamplesPerSec * nBlockAlign) % 2 ^ 32
    dwChannelMask := speakerConfig b.Channels
    SubFormat := 1 }

/-- The test `waveFormat.Format.nChannels == buffer->Channels() &&
waveFormat.Format.nSamplesPerSec == buffer->SampleRate()`: the `WORD` is
promoted to `int`, the `long` is converted to the `DWORD`'s unsigned type. -/
def formatMatches (wf : WaveFormat) (b : Buffer) : Bool :=
  decide ((wf.nChannels : Int) = b.Channels) && decide (wf.nSamplesPerSec = toUINT32 b.SampleRate)

/-- The constant `LONG_MIN` of a 32-bit `long`. -/
def LONG_MIN : Int := -2 ^ 31

/-- The value of an integer as a 32-bit `long` (`int` has the same width):
two's complement wrap-around. -/
def toLong (x : Int) : Int :=
  (x + 2 ^ 31) % 2 ^ 32 - 2 ^ 31

/-- The division `a / b` of two `long`s traps: the divisor is zero, or the
quotient `LONG_MIN / -1` does not fit. -/
def divTraps (a b : Int) : Bool :=
  b == 0 || (a == LONG_MIN && b == -1)

/-- The value `buffer->Samples() / buffer->Channels() * 1000` of `Configure`, in
`long`: truncating division, wrapping product. -/
def framesMillis (b : Buffer) : Int :=
  toLong (Int.tdiv (toLong b.Samples) (toLong b.Channels) * 1000)

/-- One of the two divisions in the computation of `totalMillis` traps. -/
def durationTraps (b : Buffer) : Bool :=
  divTraps (toLong b.Samples) (toLong b.Channels) ||
    divTraps (framesMillis b) (toLong b.SampleRate)

/-- The value `totalMillis` of `Configure`, in `long`; the `round` is of an
integer and changes nothing. -/
def totalMillis (b : Buffer) : Int :=
  toLong (Int.tdiv (framesMillis b) (toLong b.SampleRate) * MAX_BUFFERS_PER_OUTPUT)

/-- The value `hundredNanos = totalMillis * 1000 * 10` of `Configure`: both
products are computed in `long` and wrap before the result is widened to
`REFERENCE_TIME`. -/
def hundredNanos (b : Buffer) : Int :=
  toLong (toLong (totalMillis b * 1000) * 10)

/-- Continue with `k` when `r` did not leave the function. In the stages of
`Configure`, `returned true` stands for "go on" and `returned false` for the
`return false` of the source. -/
def Result.andThen (r : Result) (k : Session → List Event → Result) : Result :=
  match r.outcome with
  | Outcome.returned true => k r.session r.log
  | _ => r

/-- In `Configure`, the block `if (!this->audioClient) { ... }`: enumerator,
default endpoint, client activation. -/
def acquireClient (p : Platform) (s : Session) (log : List Event) : Result :=
  match s.audioClient with
  | some _ => ⟨Outcome.returned true, s, log⟩
  | none =>
    let log1 := log ++ [Event.CoInitialize]
    let e := p.pointer log1.length
    let s1 := { s with enumerator := e }
    let log2 := log1 ++ [Event.CoCreateInstance e]
    match e with
    | none => ⟨Outcome.returned false, s1, log2⟩
    | some en =>
      let d := p.pointer log2.length
      let s2 := { s1 with device := d }
      let log3 := log2 ++ [Event.GetDefaultAudioEndpoint en d]
      match d with
      | none => ⟨Outcome.returned false, s2, log3⟩
      | some dv =>
        let c := p.pointer log3.length
        let s3 := { s2 with audioClient := c }
        let log4 := log3 ++ [Event.Activate dv c]
        match c with
        | none => ⟨Outcome.returned false, s3, log4⟩
        | some _ => ⟨Outcome.returned true, s3, log4⟩

/-- In `Configure`, the part from the write of `waveFormat` to `GetBufferSize` and the
latency: format probe, `Initialize`, `GetBufferSize`. -/
def initializeClient (p : Platform) (b : Buffer) (s : Session) (log : List Event) : Result :=
  match s.audioClient with
  | none => ⟨Outcome.crashed, s, log⟩
  | some ac =>
    let wf := formatOf b
    let s1 := { s with waveFormat := wf }
    let supported := p.hresult log.length
    let streamFlags := if supported then 0 else AUDCLNT_STREAMFLAGS_AUTOCONVERTPCM
    let log1 := log ++ [Event.IsFormatSupported ac wf supported]
    if durationTraps b then ⟨Outcome.crashed, s1, log1⟩
    else
      let okInit := p.hresult log1.length
      let log2 := log1 ++ [Event.Initialize ac streamFlags (hundredNanos b) wf okInit]
      if !okInit then ⟨Outcome.returned false, s1, log2⟩
      else
        let okSize := p.hresult log2.length
        let frames := p.bufferSize log2.length % 2 ^ 32
        let log3 := log2 ++ [Event.GetBufferSize ac okSize frames]
        if !okSize then ⟨Outcome.returned false, s1, log3⟩
        else
          let s2 := { s1 with outputBufferFrames := frames }
          let s3 := { s2 with latency := (frames : ℚ) / (b.SampleRate : ℚ) }
          ⟨Outcome.returned true, s3, log3⟩

/-- In `Configure`, the four `GetService` calls. -/
def acquireServices (p : Platform) (s : Session) (log : List Event) : Result :=
  match s.audioClient with
  | none => ⟨Outcome.crashed, s, log⟩
  | some ac =>
    let r := p.pointer log.length
    let s1 := { s with renderClient := r }
    let log1 := log ++ [Event.GetService ac Service.IAudioRenderClient r]
    if r.isNone then ⟨Outcome.returned false, s1, log1⟩
    else
      let m := p.pointer log1.length
      let s2 := { s1 with simpleAudioVolume := m }
      let log2 := log1 ++ [Event.GetService ac Service.ISimpleAudioVolume m]
      if m.isNone then ⟨Outcome.returned false, s2, log2⟩
      else
        let v := p.pointer log2.length
        let s3 := { s2 with audioStreamVolume := v }
        let log3 := log2 ++ [Event.GetService ac Service.IAudioStreamVolume v]
        if v.isNone then ⟨Outcome.returned false, s3, log3⟩
        else
          let c := p.pointer log3.length
          let s4 := { s3 with audioClock := c }
          let log4 := log3 ++ [Event.GetService ac Service.IAudioClock c]
          if c.isNone then ⟨Outcome.returned false, s4, log4⟩
          else ⟨Outcome.returned true, s4, log4⟩

/-- In `Configure`, the end: `Start`, `state = StatePlaying`, `SetVolume(volume)`. -/
def startClient (p : Platform) (s : Session) (log : List Event) : Result :=
  match s.audioClient with
  | none => ⟨Outcome.crashed, s, log⟩
  | some ac =>
    let ok := p.hresult log.length
    let log1 := log ++ [Event.Start ac ok]
    if !ok then ⟨Outcome.returned false, s, log1⟩
    else
      let s1 := { s with state := StatePlaying }
      let r := SetVolume p s1.volume s1 log1
      ⟨Outcome.returned true, r.1, r.2⟩

/-- The rest of `Configure` after the format test failed: everything from the choice of
`speakerConfig` to the end. -/
def reconfigure (p : Platform) (b : Buffer) (s : Session) (log : List Event) : Result :=
  (initializeClient p b s log).andThen fun s2 log2 =>
    (acquireServices p s2 log2).andThen fun s3 log3 =>
      startClient p s3 log3

/-- The method `WasapiOut::Configure`. -/
def Configure (p : Platform) (b : Buffer) (s : Session) (log : List Event) : Result :=
  (acquireClient p s log).andThen fun s1 log1 =>
    if formatMatches s1.waveFormat b then ⟨Outcome.returned true, s1, log1⟩
    else reconfigure p b s1 log1

/-! ## Submission -/

/-- An unlocked load of `this->state`: a store of the control thread that
became visible at this moment is taken over, and the value seen is logged. -/
def observe (p : Platform) (s : Session) (log : List Event) : Session × List Event :=
  let seen := (p.control log.length).getD s.state
  ({ s with state := seen }, log ++ [Event.LoadState seen])

/-- The value `framesToWrite = samples / (UINT32) buffer->Channels()` with
`samples = (UINT32) buffer->Samples()`. -/
def framesToWrite (b : Buffer) : Nat :=
  toUINT32 b.Samples / toUINT32 b.Channels

/-- The value `availableFrames = this->outputBufferFrames - frameOffset` in `UINT32`. -/
def availableFrames (capacity queued : Nat) : Nat :=
  (capacity + 2 ^ 32 - queued % 2 ^ 32) % 2 ^ 32

/-- The value `sleepTime = (delta * 1000 * 1000 * 10) / buffer->SampleRate()`: the product
is computed in `UINT32`, the division is unsigned. -/
def sleepTime (delta : Nat) (b : Buffer) : Nat :=
  (delta * 1000 * 1000 * 10 % 2 ^ 32) / toUINT32 b.SampleRate

/-- How the `do ... while` of `Play` ends, with the last `availableFrames`. -/
structure Waited where
  outcome : Outcome
  availableFrames : Nat
  session : Session
  log : List Event

/-- The `do ... while` loop of `Play`; `outcome = returned true` says that the
loop was left. One unit of fuel is one iteration. -/
def waitLoop (p : Platform) (b : Buffer) (ac : Nat) :
    Nat → Session → List Event → Waited
  | 0, s, log => ⟨Outcome.pending, 0, s, log⟩
  | fuel + 1, s, log =>
    let frameOffset := p.padding log.length % 2 ^ 32
    let log1 := log ++ [Event.GetCurrentPadding ac frameOffset]
    let available := availableFrames s.outputBufferFrames frameOffset
    if available < framesToWrite b then
      if toUINT32 b.SampleRate = 0 then ⟨Outcome.crashed, available, s, log1⟩
      else
        let delta := framesToWrite b - available
        let log2 := log1 ++ [Event.Sleep (sleepTime delta b)]
        let o := observe p s log2
        if o.1.state = StatePlaying then waitLoop p b ac fuel o.1 o.2
        else ⟨Outcome.returned true, available, o.1, o.2⟩
    else
      let o := observe p s log1
      ⟨Outcome.returned true, available, o.1, o.2⟩

/-- The part of `Play` after the loop: the write into the device, the release of the two
references and the call of the owner. `rc` and `ac` are the local copies. -/
def finish (p : Platform) (b : Buffer) (rc ac : Nat) (w : Waited) : Result :=
  let o := observe p w.session w.log
  let tail (written : Bool) (log : List Event) : Result :=
    let log1 := log ++ [Event.Release rc, Event.Release ac]
    ⟨Outcome.returned written, o.1,
      if written then log1 ++ [Event.OnBufferProcessed b] else log1⟩
  if o.1.state = StatePlaying then
    if w.availableFrames ≥ framesToWrite b then
      match o.1.renderClient with
      | none => ⟨Outcome.crashed, o.1, o.2⟩
      | some sink =>
        let ok := p.hresult o.2.length
        let log1 := o.2 ++ [Event.GetBuffer sink (framesToWrite b) ok]
        if ok then
          tail true (log1 ++ [Event.Memcpy (4 * toUINT32 b.Samples),
            Event.ReleaseBuffer rc (framesToWrite b)])
        else tail false log1
    else tail false o.2
  else tail false o.2

/-- The part of `Play` from the declaration of `result` on, with the local copies `rc` and
`ac` of the sink and the client. -/
def deliver (fuel : Nat) (p : Platform) (b : Buffer) (rc ac : Nat)
    (s : Session) (log : List Event) : Result :=
  if toUINT32 b.Channels = 0 then ⟨Outcome.crashed, s, log⟩
  else
    let w := waitLoop p b ac fuel s log
    match w.outcome with
    | Outcome.returned _ => finish p b rc ac w
    | o => ⟨o, w.session, w.log⟩

/-- The method `WasapiOut::Play`. -/
def Play (fuel : Nat) (p : Platform) (b : Buffer) (s : Session) (log : List Event) : Result :=
  if s.state = StatePaused then ⟨Outcome.returned false, s, log⟩
  else
    let c := Configure p b s log
    match c.outcome with
    | Outcome.returned true =>
      match c.session.renderClient with
      | none => ⟨Outcome.crashed, c.session, c.log⟩
      | some rc =>
        match c.session.audioClient with
        | none => ⟨Outcome.crashed, c.session, c.log ++ [Event.AddRef rc]⟩
        | some ac => deliver fuel p b rc ac c.session (c.log ++ [Event.AddRef rc, Event.AddRef ac])
    | Outcome.returned false =>
      let r := Reset c.session c.log
      ⟨Outcome.returned false, r.1, r.2⟩
    | o => ⟨o, c.session, c.log⟩

/-! ## Drain -/

/-- The function `round` of C on a rational: to the nearest integer, halves
away from zero. -/
def round (x : ℚ) : Int :=
  if 0 ≤ x then Int.floor (x + 1 / 2) else Int.ceil (x - 1 / 2)

/-- The value `sleepMs = (int) (round(this->Latency()) * 1000.0f)` of `Drain`, for values
in the range of `int`. -/
def sleepMs (s : Session) : Int :=
  round (Latency s) * 1000

/-- The `while` loop of `Drain` with `sleepMs` milliseconds left; `none` when
the fuel is used up before the loop ends. One unit of fuel is one iteration. -/
def drainLoop (p : Platform) : Nat → Int → Session → List Event → Option (Session × List Event)
  | 0, _, _, _ => none
  | fuel + 1, ms, s, log =>
    let o := observe p s log
    if o.1.state ≠ StateStopped ∧ ms > 0 then
      let log1 := o.2 ++ [Event.SleepMs 50]
      let o1 := observe p o.1 log1
      drainLoop p fuel (if o1.1.state = StatePlaying then ms - 50 else ms) o1.1 o1.2
    else some o

/-- The method `WasapiOut::Drain`. -/
def Drain (fuel : Nat) (p : Platform) (s : Session) (log : List Event) :
    Option (Session × List Event) :=
  drainLoop p fuel (sleepMs s) s log

/-! ## Reading a log -/

/-- The kinds of operation a log can hold. -/
inductive Kind where
  | acquire
  | probe
  | init
  | service
  | start
  | halt
  | addref
  | release
  | poll
  | sleep
  | load
  | write
  | volume
  | notify
  deriving DecidableEq, Repr

/-- The kind of an event: `acquire` is the acquisition of enumerator, endpoint
and client, `write` is `GetBuffer`, the copy and `ReleaseBuffer`, `notify` is
the call of the owner. -/
def Event.kind : Event → Kind
  | Event.CoInitialize => Kind.acquire
  | Event.CoCreateInstance _ => Kind.acquire
  | Event.GetDefaultAudioEndpoint _ _ => Kind.acquire
  | Event.Activate _ _ => Kind.acquire
  | Event.IsFormatSupported _ _ _ => Kind.probe
  | Event.Initialize _ _ _ _ _ => Kind.init
  | Event.GetBufferSize _ _ _ => Kind.service
  | Event.GetService _ _ _ => Kind.service
  | Event.Start _ _ => Kind.start
  | Event.Stop _ => Kind.halt
  | Event.Reset _ => Kind.halt
  | Event.AddRef _ => Kind.addref
  | Event.Release _ => Kind.release
  | Event.GetCurrentPadding _ _ => Kind.poll
  | Event.Sleep _ => Kind.sleep
  | Event.SleepMs _ => Kind.sleep
  | Event.LoadState _ => Kind.load
  | Event.GetBuffer _ _ _ => Kind.write
  | Event.Memcpy _ => Kind.write
  | Event.ReleaseBuffer _ _ => Kind.write
  | Event.SetMasterVolume _ _ => Kind.volume
  | Event.SetMute _ _ => Kind.volume
  | Event.GetChannelCount _ _ => Kind.volume
  | Event.SetChannelVolume _ _ _ => Kind.volume
  | Event.OnBufferProcessed _ => Kind.notify

/-- The Streaming Client a call is made on, for the calls on a client. -/
def Event.client : Event → Option Nat
  | Event.IsFormatSupported c _ _ => some c
  | Event.Initialize c _ _ _ _ => some c
  | Event.GetBufferSize c _ _ => some c
  | Event.GetService c _ _ => some c
  | Event.Start c _ => some c
  | Event.Stop c => some c
  | Event.Reset c => some c
  | Event.GetCurrentPadding c _ => some c
  | _ => none

/-- The events a call appended: the log after it without the log before it. -/
def newEvents (before after : List Event) : List Event :=
  after.drop before.length

/-- The number of calls of the owner's `OnBufferProcessed` in a list of events. -/
def notifications (l : List Event) : Nat :=
  l.countP fun e => decide (e.kind = Kind.notify)

/-- The number of `Sleep(50)` calls in a list of events. -/
def sleeps (l : List Event) : Nat :=
  l.countP fun e => decide (e = Event.SleepMs 50)

/-- The size in bytes of the region `GetBuffer` hands out for `frames` frames of
the format `wf`: `frames` blocks of `nBlockAlign` bytes. -/
def regionBytes (wf : WaveFormat) (frames : Nat) : Nat :=
  frames * wf.nBlockAlign

/-- The queued-frame count an event reports, when it is a `GetCurrentPadding`. -/
def pollOf : Event → Option Nat
  | Event.GetCurrentPadding _ q => some q
  | _ => none

/-- The transport state an event saw, when it is an unlocked load. -/
def loadOf : Event → Option TransportState
  | Event.LoadState st => some st
  | _ => none

/-- The client and the format of an event, when it is a successful `Initialize`. -/
def initOf : Event → Option (Nat × WaveFormat)
  | Event.Initialize ac _ _ wf true => some (ac, wf)
  | _ => none

/-- The queued-frame count of the most recent `GetCurrentPadding` of a log. -/
def lastPoll (l : List Event) : Option Nat :=
  l.reverse.findSome? pollOf

/-- The transport state seen by the most recent unlocked load of a log. -/
def lastLoad (l : List Event) : Option TransportState :=
  l.reverse.findSome? loadOf

/-- The client and the format of the most recent successful `Initialize` of a log. -/
def lastInit (l : List Event) : Option (Nat × WaveFormat) :=
  l.reverse.findSome? initOf

/-- The log `log2` is `log1` followed by events of the kinds `K` only. -/
def Extends (K : List Kind) (log1 log2 : List Event) : Prop :=
  ∃ new, log2 = log1 ++ new ∧ ∀ e ∈ new, e.kind ∈ K

/-- The log `log2` is `log1` followed by events whose calls on a Streaming
Client are all calls on the client `ac`. -/
def Owned (ac : Nat) (log1 log2 : List Event) : Prop :=
  ∃ new, log2 = log1 ++ new ∧ ∀ e ∈ new, ∀ c, e.client = some c → c = ac

/-! ## Sequences of calls -/

/-- One call of the public interface. -/
inductive Op where
  | Resume
  | Pause
  | Stop
  | SetVolume (v : ℚ)
  | Play (fuel : Nat) (b : Buffer)
  | Reset

/-- The session and the log after a call that returned; `none` when `Play`
crashed or did not return within its fuel. -/
def step (p : Platform) (op : Op) (s : Session) (log : List Event) :
    Option (Session × List Event) :=
  match op with
  | Op.Resume => some (Resume p s log)
  | Op.Pause => some (Pause s log)
  | Op.Stop => some (Stop p s log)
  | Op.SetVolume v => some (SetVolume p v s log)
  | Op.Reset => some (Reset s log)
  | Op.Play fuel b =>
    match (Play fuel p b s log).outcome with
    | Outcome.returned _ => some ((Play fuel p b s log).session, (Play fuel p b s log).log)
    | _ => none

/-- The session and the log after a sequence of calls, each of which returned. -/
def run (p : Platform) : List Op → Session → List Event → Option (Session × List Event)
  | [], s, log => some (s, log)
  | op :: ops, s, log =>
    match step p op s log with
    | some r => run p ops r.1 r.2
    | none => none

/-! ## Sample inputs -/

/-- A platform on which every call succeeds: the call at moment `t` hands out
the pointer `t + 100`, the device holds 1000 frames, nothing is queued, the
stream has two channels and the control thread is silent. -/
def okPlatform : Platform :=
  { pointer := fun t => some (t + 100), hresult := fun _ => true,
    bufferSize := fun _ => 1000, padding := fun _ => 0, channelCount := fun _ => 2,
    control := fun _ => none }

/-- A platform without an audio device: every creating call fails. -/
def noDevice : Platform :=
  { okPlatform with pointer := fun _ => none }

/-- A platform like `okPlatform` whose queue holds 900 of the 1000 frames up to
the first poll of a first `Play` and is empty afterwards. -/
def draining : Platform :=
  { okPlatform with padding := fun t => if t < 20 then 900 else 0 }

/-- A platform like `okPlatform` whose device buffer holds 24000 frames, half a
second at 48 kHz. -/
def halfSecond : Platform :=
  { okPlatform with bufferSize := fun _ => 24000 }

/-- A platform like `okPlatform` on which the twelfth call, the `Start` of a
first `Configure`, fails. -/
def startFails : Platform :=
  { okPlatform with hresult := fun t => t != 11 }

/-- A platform like `okPlatform` on which the call at moment 29 fails: the
`Initialize` of a `Configure` that follows a first `Play`. -/
def reinitFails : Platform :=
  { okPlatform with hresult := fun t => t != 29 }

/-- The `double` nearest to one tenth. -/
def tenth : ℚ := 3602879701896397 / 2 ^ 55

/-- A stereo buffer of 672000 frames at 48 kHz: 14 seconds. -/
def long14 : Buffer := ⟨1344000, 2, 48000⟩

/-- A stereo buffer of 256 frames at 48 kHz. -/
def stereo : Buffer := ⟨512, 2, 48000⟩

/-- A mono buffer of 512 frames at 48 kHz. -/
def mono : Buffer := ⟨512, 1, 48000⟩

/-- A stereo buffer of three samples: one frame and a half. -/
def ragged : Buffer := ⟨3, 2, 48000⟩

/-- A stereo buffer of 2000 frames, more than the 1000 frames of `okPlatform`. -/
def large : Buffer := ⟨4000, 2, 48000⟩

/-- The run of the first `Play` of `stereo` on a new session on `okPlatform`. -/
def firstPlay : Result :=
  Play 1 okPlatform stereo new []

/-- The session and the log after the first `Play` on `okPlatform` and a `Stop`. -/
def afterStop : Session × List Event :=
  Stop okPlatform firstPlay.session firstPlay.log

/-- The run of the first `Play` of `stereo` on a new session on `reinitFails`. -/
def firstPlayReinit : Result :=
  Play 1 reinitFails stereo new []

/-- The run of the first `Play` of `stereo` on a new session on `halfSecond`. -/
def halfSecondPlay : Result :=
  Play 1 halfSecond stereo new []

/-! ## Lemmas and theorems -/

theorem Extends.refl (K : List Kind) (log : List Event) : Extends K log log :=
  ⟨[], by simp, by simp⟩

theorem Extends.trans {K : List Kind} {a b c : List Event}
    (h1 : Extends K a b) (h2 : Extends K b c) : Extends K a c := by
  obtain ⟨n1, rfl, h1⟩ := h1
  obtain ⟨n2, rfl, h2⟩ := h2
  refine ⟨n1 ++ n2, by simp, ?_⟩
  intro e he
  rcases List.mem_append.mp he with h | h
  · exact h1 e h
  · exact h2 e h

theorem Extends.mono {K K2 : List Kind} {a b : List Event}
    (h : Extends K a b) (hK : ∀ k ∈ K, k ∈ K2) : Extends K2 a b := by
  obtain ⟨n, rfl, h⟩ := h
  exact ⟨n, rfl, fun e he => hK _ (h e he)⟩

theorem Extends.append {K : List Kind} (log new : List Event)
    (h : ∀ e ∈ new, e.kind ∈ K) : Extends K log (log ++ new) :=
  ⟨new, rfl, h⟩

theorem Extends.newEvents {K : List Kind} {a b : List Event} (h : Extends K a b) :
    b = a ++ newEvents a b ∧ ∀ e ∈ newEvents a b, e.kind ∈ K := by
  obtain ⟨n, rfl, h⟩ := h
  simp [WasapiOut.newEvents]
  exact h

theorem channelVolumes_kind (sv : Nat) (v : ℚ) (n : Nat) :
    ∀ e ∈ channelVolumes sv v n, e.kind = Kind.volume := by
  intro e he
  simp [channelVolumes] at he
  obtain ⟨i, _, rfl⟩ := he
  rfl

theorem SetVolume_extends (p : Platform) (v : ℚ) (s : Session) (log : List Event) :
    Extends [Kind.volume] log (SetVolume p v s log).2 := by
  unfold SetVolume
  simp only
  split
  · split
    · rw [List.append_assoc, List.append_assoc]
      apply Extends.append
      intro e he
      simp at he
      rcases he with rfl | rfl | rfl | he
      · simp [Event.kind]
      · simp [Event.kind]
      · simp [Event.kind]
      · simp [channelVolumes_kind _ _ _ e he]
    · apply Extends.append
      intro e he
      simp at he
      rcases he with rfl | rfl <;> simp [Event.kind]
  · exact Extends.refl _ _

theorem SetVolume_session (p : Platform) (v : ℚ) (s : Session) (log : List Event) :
    (SetVolume p v s log).1 = { s with volume := v } := by
  unfold SetVolume
  simp only
  split
  · split <;> rfl
  · rfl

theorem Reset_extends (s : Session) (log : List Event) :
    Extends [Kind.halt, Kind.release] log (Reset s log).2 := by
  unfold Reset
  simp only [List.append_assoc]
  apply Extends.append
  intro e he
  simp only [List.mem_append] at he
  have hr : ∀ h : Option Nat, e ∈ releaseOf h → e.kind ∈ [Kind.halt, Kind.release] := by
    intro h he
    cases h <;> simp [releaseOf] at he
    subst he; simp [Event.kind]
  rcases he with he | he | he | he | he | he | he
  · cases h : s.audioClient <;> rw [h] at he <;> simp [stopReleaseOf] at he
    rcases he with rfl | rfl <;> simp [Event.kind]
  all_goals exact hr _ he

theorem Extends.snoc {K : List Kind} {a b : List Event} (e : Event)
    (h : Extends K a b) (he : e.kind ∈ K) : Extends K a (b ++ [e]) :=
  Extends.trans h (Extends.append b [e] (by simpa using he))

theorem andThen_true (r : Result) (k : Session → List Event → Result)
    (h : r.outcome = Outcome.returned true) : r.andThen k = k r.session r.log := by
  simp [Result.andThen, h]

theorem andThen_of_ne (r : Result) (k : Session → List Event → Result)
    (h : r.outcome ≠ Outcome.returned true) : r.andThen k = r := by
  unfold Result.andThen
  split
  · contradiction
  · rfl

theorem acquireClient_some (p : Platform) (s : Session) (log : List Event) (ac : Nat)
    (h : s.audioClient = some ac) :
    acquireClient p s log = ⟨Outcome.returned true, s, log⟩ := by
  simp [acquireClient, h]

/-- What `acquireClient` leaves untouched, how it ends, and what it appends. -/
theorem acquireClient_spec (p : Platform) (s : Session) (log : List Event) :
    Extends [Kind.acquire] log (acquireClient p s log).log ∧
    ((acquireClient p s log).outcome = Outcome.returned true ∨
      (acquireClient p s log).outcome = Outcome.returned false) ∧
    ((acquireClient p s log).outcome = Outcome.returned true →
      ∃ ac, (acquireClient p s log).session.audioClient = some ac) ∧
    (acquireClient p s log).session.renderClient = s.renderClient ∧
    (acquireClient p s log).session.simpleAudioVolume = s.simpleAudioVolume ∧
    (acquireClient p s log).session.audioStreamVolume = s.audioStreamVolume ∧
    (acquireClient p s log).session.audioClock = s.audioClock ∧
    (acquireClient p s log).session.outputBufferFrames = s.outputBufferFrames ∧
    (acquireClient p s log).session.state = s.state ∧
    (acquireClient p s log).session.latency = s.latency ∧
    (acquireClient p s log).session.volume = s.volume ∧
    (acquireClient p s log).session.waveFormat = s.waveFormat := by
  cases hs : s.audioClient with
  | some ac =>
    rw [acquireClient_some p s log ac hs]
    simp [Extends.refl, hs]
  | none =>
    simp only [acquireClient, hs]
    split
    · refine ⟨?_, by simp⟩
      exact Extends.snoc _ (Extends.snoc _ (Extends.refl _ _) (by simp [Event.kind]))
        (by simp [Event.kind])
    · split
      · refine ⟨?_, by simp⟩
        exact Extends.snoc _ (Extends.snoc _ (Extends.snoc _ (Extends.refl _ _)
          (by simp [Event.kind])) (by simp [Event.kind])) (by simp [Event.kind])
      · split
        · refine ⟨?_, by simp⟩
          exact Extends.snoc _ (Extends.snoc _ (Extends.snoc _ (Extends.snoc _ (Extends.refl _ _)
            (by simp [Event.kind])) (by simp [Event.kind])) (by simp [Event.kind]))
            (by simp [Event.kind])
        · rename_i c hc
          refine ⟨?_, by simp at hc; simp [hc]⟩
          exact Extends.snoc _ (Extends.snoc _ (Extends.snoc _ (Extends.snoc _ (Extends.refl _ _)
            (by simp [Event.kind])) (by simp [Event.kind])) (by simp [Event.kind]))
            (by simp [Event.kind])

/-- What `initializeClient` does when there is a client. -/
theorem initializeClient_spec (p : Platform) (b : Buffer) (s : Session) (log : List Event)
    (ac : Nat) (h : s.audioClient = some ac) :
    Extends [Kind.probe, Kind.init, Kind.service] log (initializeClient p b s log).log ∧
    (initializeClient p b s log).outcome ≠ Outcome.pending ∧
    ((initializeClient p b s log).outcome = Outcome.returned true →
      (initializeClient p b s log).log = log ++
        [Event.IsFormatSupported ac (formatOf b) (p.hresult log.length),
         Event.Initialize ac
           (if p.hresult log.length then 0 else AUDCLNT_STREAMFLAGS_AUTOCONVERTPCM)
           (hundredNanos b) (formatOf b) true,
         Event.GetBufferSize ac true (p.bufferSize (log.length + 2) % 2 ^ 32)] ∧
      (initializeClient p b s log).session.outputBufferFrames < 2 ^ 32) ∧
    (durationTraps b = false →
      (initializeClient p b s log).outcome ≠ Outcome.crashed ∧
      ∃ rest, (initializeClient p b s log).log = log ++
        [Event.IsFormatSupported ac (formatOf b) (p.hresult log.length),
         Event.Initialize ac
           (if p.hresult log.length then 0 else AUDCLNT_STREAMFLAGS_AUTOCONVERTPCM)
           (hundredNanos b) (formatOf b) (p.hresult (log.length + 1))] ++ rest ∧
        ∀ e ∈ rest, e.kind = Kind.service) ∧
    (initializeClient p b s log).session.waveFormat = formatOf b ∧
    (initializeClient p b s log).session.enumerator = s.enumerator ∧
    (initializeClient p b s log).session.device = s.device ∧
    (initializeClient p b s log).session.audioClient = s.audioClient ∧
    (initializeClient p b s log).session.renderClient = s.renderClient ∧
    (initializeClient p b s log).session.simpleAudioVolume = s.simpleAudioVolume ∧
    (initializeClient p b s log).session.audioStreamVolume = s.audioStreamVolume ∧
    (initializeClient p b s log).session.audioClock = s.audioClock ∧
    (initializeClient p b s log).session.state = s.state ∧
    (initializeClient p b s log).session.volume = s.volume := by
  have hm : p.bufferSize (log.length + 2) % 4294967296 < 4294967296 :=
    Nat.mod_lt _ (by norm_num)
  cases hz : durationTraps b with
  | true =>
    have e : initializeClient p b s log = ⟨Outcome.crashed, { s with waveFormat := formatOf b },
        log ++ [Event.IsFormatSupported ac (formatOf b) (p.hresult log.length)]⟩ := by
      simp [initializeClient, h, hz]
    rw [e]
    refine ⟨Extends.append _ _ (by simp [Event.kind]), by simp, by simp, ?_, by simp [h]⟩
    intro h1
    simp at h1
  | false =>
    cases hi : p.hresult (log.length + 1) with
    | false =>
      have e : initializeClient p b s log = ⟨Outcome.returned false,
          { s with waveFormat := formatOf b },
          log ++ [Event.IsFormatSupported ac (formatOf b) (p.hresult log.length),
            Event.Initialize ac
              (if p.hresult log.length then 0 else AUDCLNT_STREAMFLAGS_AUTOCONVERTPCM)
              (hundredNanos b) (formatOf b) false]⟩ := by
        simp [initializeClient, h, hz, hi]
      rw [e]
      refine ⟨Extends.append _ _ (by simp [Event.kind]), by simp, by simp, ?_, by simp [h]⟩
      intro _
      exact ⟨by simp, [], by simp, by simp⟩
    | true =>
      cases hs : p.hresult (log.length + 2) with
      | false =>
        have e : initializeClient p b s log = ⟨Outcome.returned false,
            { s with waveFormat := formatOf b },
            log ++ [Event.IsFormatSupported ac (formatOf b) (p.hresult log.length),
              Event.Initialize ac
                (if p.hresult log.length then 0 else AUDCLNT_STREAMFLAGS_AUTOCONVERTPCM)
                (hundredNanos b) (formatOf b) true,
              Event.GetBufferSize ac false (p.bufferSize (log.length + 2) % 2 ^ 32)]⟩ := by
          simp [initializeClient, h, hz, hi, hs]
        rw [e]
        refine ⟨Extends.append _ _ (by simp [Event.kind]), by simp, by simp, ?_, by simp [h]⟩
        intro _
        exact ⟨by simp, [Event.GetBufferSize ac false (p.bufferSize (log.length + 2) % 2 ^ 32)],
          by simp, by simp [Event.kind]⟩
      | true =>
        have e : initializeClient p b s log = ⟨Outcome.returned true,
            { s with waveFormat := formatOf b,
                     outputBufferFrames := p.bufferSize (log.length + 2) % 2 ^ 32,
                     latency := ((p.bufferSize (log.length + 2) % 2 ^ 32 : Nat) : ℚ) /
                       (b.SampleRate : ℚ) },
            log ++ [Event.IsFormatSupported ac (formatOf b) (p.hresult log.length),
              Event.Initialize ac
                (if p.hresult log.length then 0 else AUDCLNT_STREAMFLAGS_AUTOCONVERTPCM)
                (hundredNanos b) (formatOf b) true,
              Event.GetBufferSize ac true (p.bufferSize (log.length + 2) % 2 ^ 32)]⟩ := by
          simp [initializeClient, h, hz, hi, hs]
        rw [e]
        refine ⟨Extends.append _ _ (by simp [Event.kind]), by simp, by simpa using hm, ?_,
          by simp [h]⟩
        intro _
        exact ⟨by simp, [Event.GetBufferSize ac true (p.bufferSize (log.length + 2) % 2 ^ 32)],
          by simp, by simp [Event.kind]⟩

/-- What `acquireServices` does when there is a client. -/
theorem acquireServices_spec (p : Platform) (s : Session) (log : List Event)
    (ac : Nat) (h : s.audioClient = some ac) :
    Extends [Kind.service] log (acquireServices p s log).log ∧
    ((acquireServices p s log).outcome = Outcome.returned true ∨
      (acquireServices p s log).outcome = Outcome.returned false) ∧
    ((acquireServices p s log).outcome = Outcome.returned true →
      (acquireServices p s log).session.renderClient = p.pointer log.length ∧
      (acquireServices p s log).session.simpleAudioVolume = p.pointer (log.length + 1) ∧
      (acquireServices p s log).session.audioStreamVolume = p.pointer (log.length + 2) ∧
      (acquireServices p s log).session.audioClock = p.pointer (log.length + 3) ∧
      (acquireServices p s log).session.renderClient ≠ none ∧
      (acquireServices p s log).session.simpleAudioVolume ≠ none ∧
      (acquireServices p s log).session.audioStreamVolume ≠ none ∧
      (acquireServices p s log).session.audioClock ≠ none) ∧
    (acquireServices p s log).session.enumerator = s.enumerator ∧
    (acquireServices p s log).session.device = s.device ∧
    (acquireServices p s log).session.audioClient = s.audioClient ∧
    (acquireServices p s log).session.outputBufferFrames = s.outputBufferFrames ∧
    (acquireServices p s log).session.waveFormat = s.waveFormat ∧
    (acquireServices p s log).session.state = s.state ∧
    (acquireServices p s log).session.volume = s.volume := by
  simp only [acquireServices, h]
  split
  · exact ⟨Extends.snoc _ (Extends.refl _ _) (by simp [Event.kind]), by simp⟩
  · split
    · exact ⟨Extends.snoc _ (Extends.snoc _ (Extends.refl _ _) (by simp [Event.kind]))
        (by simp [Event.kind]), by simp⟩
    · split
      · exact ⟨Extends.snoc _ (Extends.snoc _ (Extends.snoc _ (Extends.refl _ _)
          (by simp [Event.kind])) (by simp [Event.kind])) (by simp [Event.kind]), by simp⟩
      · split
        · exact ⟨Extends.snoc _ (Extends.snoc _ (Extends.snoc _ (Extends.snoc _
            (Extends.refl _ _) (by simp [Event.kind])) (by simp [Event.kind]))
            (by simp [Event.kind])) (by simp [Event.kind]), by simp⟩
        · rename_i h1 h2 h3 h4
          refine ⟨Extends.snoc _ (Extends.snoc _ (Extends.snoc _ (Extends.snoc _
            (Extends.refl _ _) (by simp [Event.kind])) (by simp [Event.kind]))
            (by simp [Event.kind])) (by simp [Event.kind]), by simp, ?_, by simp⟩
          simp at h1 h2 h3 h4
          intro _
          simp
          refine ⟨?_, ?_, ?_, ?_⟩ <;> intro hn
          · simp [hn] at h1
          · simp [hn] at h2
          · simp [hn] at h3
          · simp [hn] at h4

/-- What `startClient` does when there is a client. -/
theorem startClient_spec (p : Platform) (s : Session) (log : List Event)
    (ac : Nat) (h : s.audioClient = some ac) :
    Extends [Kind.start, Kind.volume] log (startClient p s log).log ∧
    ((startClient p s log).outcome = Outcome.returned true ∧
        (startClient p s log).session = { s with state := StatePlaying } ∨
      (startClient p s log).outcome = Outcome.returned false ∧
        (startClient p s log).session = s) := by
  simp only [startClient, h]
  split
  · exact ⟨Extends.snoc _ (Extends.refl _ _) (by simp [Event.kind]), by simp⟩
  · refine ⟨?_, ?_⟩
    · refine Extends.trans (Extends.append log [Event.Start ac (p.hresult log.length)]
        (by simp [Event.kind])) ?_
      exact Extends.mono (SetVolume_extends _ _ _ _) (by simp)
    · left
      refine ⟨rfl, ?_⟩
      simp [SetVolume_session]

theorem lastInit_append (a b : List Event) :
    lastInit (a ++ b) = (lastInit b).or (lastInit a) := by
  simp [lastInit, List.findSome?_append]

theorem lastInit_none {l : List Event} (h : ∀ e ∈ l, e.kind ≠ Kind.init) :
    lastInit l = none := by
  simp only [lastInit, List.findSome?_eq_none_iff, List.mem_reverse]
  intro e he
  have := h e he
  cases e <;> simp [Event.kind, initOf] at this ⊢

theorem lastInit_extends {K : List Kind} {a b : List Event} (h : Extends K a b)
    (hK : Kind.init ∉ K) : lastInit b = lastInit a := by
  obtain ⟨n, rfl, hn⟩ := h
  rw [lastInit_append, lastInit_none]
  · rfl
  · intro e he hk
    exact hK (hk ▸ hn e he)

/-- What `reconfigure` does when there is a client. -/
theorem reconfigure_spec (p : Platform) (b : Buffer) (s : Session) (log : List Event)
    (ac : Nat) (h : s.audioClient = some ac) :
    Extends [Kind.probe, Kind.init, Kind.service, Kind.start, Kind.volume] log
      (reconfigure p b s log).log ∧
    (reconfigure p b s log).outcome ≠ Outcome.pending ∧
    ((reconfigure p b s log).outcome = Outcome.returned false →
      (reconfigure p b s log).session.state = s.state) ∧
    ((reconfigure p b s log).outcome = Outcome.returned true →
      (reconfigure p b s log).session.state = StatePlaying ∧
      (reconfigure p b s log).session.renderClient = p.pointer (log.length + 3) ∧
      (reconfigure p b s log).session.simpleAudioVolume = p.pointer (log.length + 4) ∧
      (reconfigure p b s log).session.audioStreamVolume = p.pointer (log.length + 5) ∧
      (reconfigure p b s log).session.audioClock = p.pointer (log.length + 6) ∧
      (reconfigure p b s log).session.renderClient ≠ none ∧
      (reconfigure p b s log).session.simpleAudioVolume ≠ none ∧
      (reconfigure p b s log).session.audioStreamVolume ≠ none ∧
      (reconfigure p b s log).session.audioClock ≠ none ∧
      (reconfigure p b s log).session.outputBufferFrames < 2 ^ 32 ∧
      lastInit (reconfigure p b s log).log = some (ac, formatOf b)) ∧
    (durationTraps b = false →
      (reconfigure p b s log).outcome ≠ Outcome.crashed ∧
      ∃ rest, (reconfigure p b s log).log = log ++
        [Event.IsFormatSupported ac (formatOf b) (p.hresult log.length),
         Event.Initialize ac
           (if p.hresult log.length then 0 else AUDCLNT_STREAMFLAGS_AUTOCONVERTPCM)
           (hundredNanos b) (formatOf b) (p.hresult (log.length + 1))] ++ rest ∧
        ∀ e ∈ rest, e.kind ∈ [Kind.service, Kind.start, Kind.volume]) ∧
    (reconfigure p b s log).session.waveFormat = formatOf b ∧
    (reconfigure p b s log).session.enumerator = s.enumerator ∧
    (reconfigure p b s log).session.device = s.device ∧
    (reconfigure p b s log).session.audioClient = s.audioClient ∧
    (reconfigure p b s log).session.volume = s.volume := by
  obtain ⟨i1, i2, i3, i4, i5, i6, i7, i8, i9, i10, i11, i12, i13, i14⟩ :=
    initializeClient_spec p b s log ac h
  unfold reconfigure
  generalize initializeClient p b s log = I at *
  by_cases hi : I.outcome = Outcome.returned true
  swap
  · rw [andThen_of_ne _ _ hi]
    refine ⟨Extends.mono i1 (by simp), i2, ?_, ?_, ?_, i5, i6, i7, i8, i14⟩
    · intro _; exact i13
    · intro h'; exact absurd h' hi
    · intro h1
      obtain ⟨c1, rest, c2, c3⟩ := i4 h1
      exact ⟨c1, rest, c2, fun e he => by simp [c3 e he]⟩
  · rw [andThen_true _ _ hi]
    have hac : I.session.audioClient = some ac := by rw [i8, h]
    obtain ⟨a1, a2, a3, a4, a5, a6, a7, a8, a9, a10⟩ :=
      acquireServices_spec p I.session I.log ac hac
    obtain ⟨j1, j2⟩ := i3 hi
    have hlen : I.log.length = log.length + 3 := by
      rw [j1]; simp
    rw [hlen] at a3
    generalize acquireServices p I.session I.log = A at *
    have hcr : ∀ l, Extends [Kind.service, Kind.start, Kind.volume] I.log l →
        durationTraps b = false →
        ∃ rest, l = log ++
          [Event.IsFormatSupported ac (formatOf b) (p.hresult log.length),
           Event.Initialize ac
             (if p.hresult log.length then 0 else AUDCLNT_STREAMFLAGS_AUTOCONVERTPCM)
             (hundredNanos b) (formatOf b) (p.hresult (log.length + 1))] ++ rest ∧
          ∀ e ∈ rest, e.kind ∈ [Kind.service, Kind.start, Kind.volume] := by
      intro l hext h1
      obtain ⟨n, hn, hk⟩ := hext
      refine ⟨[Event.GetBufferSize ac true (p.bufferSize (log.length + 2) % 2 ^ 32)] ++ n,
        ?_, ?_⟩
      · rw [hn, j1]
        have : p.hresult (log.length + 1) = true := by
          obtain ⟨_, rest, c2, _⟩ := i4 h1
          rw [j1] at c2
          simp at c2
          exact c2.1
        simp [this]
      · intro e he
        simp only [List.mem_append, List.mem_singleton] at he
        rcases he with rfl | he
        · simp [Event.kind]
        · exact hk e he
    by_cases ha : A.outcome = Outcome.returned true
    swap
    · rw [andThen_of_ne _ _ ha]
      have hf : A.outcome = Outcome.returned false := by
        rcases a2 with h' | h'
        · exact absurd h' ha
        · exact h'
      refine ⟨Extends.trans (Extends.mono i1 (by simp)) (Extends.mono a1 (by simp)),
        by simp [hf], ?_, ?_, ?_, by rw [a8, i5], by rw [a4, i6], by rw [a5, i7],
        by rw [a6, i8], by rw [a10, i14]⟩
      · intro _; rw [a9, i13]
      · intro h'; exact absurd h' ha
      · intro h1
        exact ⟨by simp [hf], hcr _ (Extends.mono a1 (by simp)) h1⟩
    · rw [andThen_true _ _ ha]
      have hac2 : A.session.audioClient = some ac := by rw [a6, hac]
      obtain ⟨t1, t2⟩ := startClient_spec p A.session A.log ac hac2
      generalize startClient p A.session A.log = T at *
      obtain ⟨b1, b2, b3, b4, b5, b6, b7, b8⟩ := a3 ha
      have hext : Extends [Kind.service, Kind.start, Kind.volume] I.log T.log :=
        Extends.trans (Extends.mono a1 (by simp)) (Extends.mono t1 (by simp))
      have hlast : lastInit T.log = some (ac, formatOf b) := by
        rw [lastInit_extends hext (by simp), j1, lastInit_append]
        simp [lastInit, initOf]
      rcases t2 with ⟨t2, t3⟩ | ⟨t2, t3⟩
      · rw [t2, t3]
        refine ⟨Extends.trans (Extends.mono i1 (by simp)) (Extends.mono hext (by simp)),
          by simp, by simp, ?_, ?_, ?_, ?_, ?_, ?_, ?_⟩
        · intro _
          exact ⟨rfl, b1, b2, b3, b4, b5, b6, b7, b8, by simpa [a7] using j2, hlast⟩
        · intro h1
          exact ⟨by simp, hcr _ hext h1⟩
        · simp [a8, i5]
        · simp [a4, i6]
        · simp [a5, i7]
        · simp [a6, i8]
        · simp [a10, i14]
      · rw [t2, t3]
        refine ⟨Extends.trans (Extends.mono i1 (by simp)) (Extends.mono hext (by simp)),
          by simp, ?_, by simp, ?_, ?_, ?_, ?_, ?_, ?_⟩
        · intro _; rw [a9, i13]
        · intro h1
          exact ⟨by simp, hcr _ hext h1⟩
        · simp [a8, i5]
        · simp [a4, i6]
        · simp [a5, i7]
        · simp [a6, i8]
        · simp [a10, i14]

theorem Configure_fast (p : Platform) (b : Buffer) (s : Session) (log : List Event) (ac : Nat)
    (h : s.audioClient = some ac) (hm : formatMatches s.waveFormat b = true) :
    Configure p b s log = ⟨Outcome.returned true, s, log⟩ := by
  unfold Configure
  rw [acquireClient_some p s log ac h, andThen_true _ _ rfl]
  simp [hm]

theorem Configure_slow (p : Platform) (b : Buffer) (s : Session) (log : List Event) (ac : Nat)
    (h : s.audioClient = some ac) (hm : formatMatches s.waveFormat b = false) :
    Configure p b s log = reconfigure p b s log := by
  unfold Configure
  rw [acquireClient_some p s log ac h, andThen_true _ _ rfl]
  simp [hm]

/-- How `Configure` ends and what it appends. -/
theorem Configure_spec (p : Platform) (b : Buffer) (s : Session) (log : List Event) :
    Extends [Kind.acquire, Kind.probe, Kind.init, Kind.service, Kind.start, Kind.volume] log
      (Configure p b s log).log ∧
    (Configure p b s log).outcome ≠ Outcome.pending ∧
    ((Configure p b s log).outcome = Outcome.returned false →
      (Configure p b s log).session.state = s.state) ∧
    ((Configure p b s log).outcome = Outcome.returned true →
      ((∃ ac, s.audioClient = some ac) ∧ (Configure p b s log).session = s ∧
        (Configure p b s log).log = log) ∨
      (s.audioClient = none ∧
        (Configure p b s log).session.renderClient = s.renderClient ∧
        (Configure p b s log).session.outputBufferFrames = s.outputBufferFrames) ∨
      (∃ ac, (Configure p b s log).session.audioClient = some ac ∧
        (Configure p b s log).session.renderClient ≠ none ∧
        (Configure p b s log).session.simpleAudioVolume ≠ none ∧
        (Configure p b s log).session.audioStreamVolume ≠ none ∧
        (Configure p b s log).session.audioClock ≠ none ∧
        (Configure p b s log).session.waveFormat = formatOf b ∧
        (Configure p b s log).session.state = StatePlaying ∧
        (Configure p b s log).session.outputBufferFrames < 2 ^ 32 ∧
        lastInit (Configure p b s log).log = some (ac, formatOf b))) := by
  obtain ⟨a1, a2, a3, a4, a5, a6, a7, a8, a9, a10, a11, a12⟩ := acquireClient_spec p s log
  unfold Configure
  by_cases ha : (acquireClient p s log).outcome = Outcome.returned true
  swap
  · rw [andThen_of_ne _ _ ha]
    have hf : (acquireClient p s log).outcome = Outcome.returned false := by
      rcases a2 with h' | h'
      · exact absurd h' ha
      · exact h'
    refine ⟨Extends.mono a1 (by simp), by simp [hf], fun _ => a9, fun h' => absurd h' ha⟩
  · rw [andThen_true _ _ ha]
    obtain ⟨ac, hac⟩ := a3 ha
    by_cases hm : formatMatches (acquireClient p s log).session.waveFormat b = true
    · simp only [hm, if_true]
      refine ⟨Extends.mono a1 (by simp), by simp, by simp, ?_⟩
      intro _
      cases hs : s.audioClient with
      | some ac0 =>
        left
        rw [acquireClient_some p s log ac0 hs]
        exact ⟨⟨ac0, rfl⟩, rfl, rfl⟩
      | none =>
        right; left
        exact ⟨rfl, a4, a8⟩
    · simp only [hm, Bool.false_eq_true, if_false]
      obtain ⟨r1, r2, r3, r4, r5, r6, r7, r8, r9, r10⟩ :=
        reconfigure_spec p b (acquireClient p s log).session (acquireClient p s log).log ac hac
      generalize reconfigure p b (acquireClient p s log).session (acquireClient p s log).log
        = R at *
      refine ⟨Extends.trans (Extends.mono a1 (by simp)) (Extends.mono r1 (by simp)), r2, ?_, ?_⟩
      · intro h'
        rw [r3 h', a9]
      · intro h'
        right; right
        obtain ⟨q1, q2, q3, q4, q5, q6, q7, q8, q9, q10, q11⟩ := r4 h'
        refine ⟨ac, by rw [r9, hac], q6, q7, q8, q9, r6, q1, q10, ?_⟩
        exact q11

theorem observe_log (p : Platform) (s : Session) (log : List Event) :
    (observe p s log).2 = log ++ [Event.LoadState (observe p s log).1.state] := rfl

theorem observe_session (p : Platform) (s : Session) (log : List Event) :
    (observe p s log).1 = { s with state := (observe p s log).1.state } := rfl

theorem observe_extends (p : Platform) (s : Session) (log : List Event) :
    Extends [Kind.load] log (observe p s log).2 := by
  rw [observe_log]
  exact Extends.append _ _ (by simp [Event.kind])

/-- The wait loop appends polls, sleeps and loads of the state only, and
changes nothing of the session but the state. -/
theorem waitLoop_extends (p : Platform) (b : Buffer) (ac : Nat) (fuel : Nat) :
    ∀ (s : Session) (log : List Event),
      Extends [Kind.poll, Kind.sleep, Kind.load] log (waitLoop p b ac fuel s log).log ∧
      (waitLoop p b ac fuel s log).session =
        { s with state := (waitLoop p b ac fuel s log).session.state } := by
  induction fuel with
  | zero =>
    intro s log
    exact ⟨Extends.refl _ _, rfl⟩
  | succ n ih =>
    intro s log
    simp only [waitLoop]
    split
    · split
      · exact ⟨Extends.append _ _ (by simp [Event.kind]), rfl⟩
      · split
        · obtain ⟨h1, h2⟩ := ih (observe p s (log ++ [Event.GetCurrentPadding ac
            (p.padding log.length % 2 ^ 32)] ++ [Event.Sleep (sleepTime
              (framesToWrite b - availableFrames s.outputBufferFrames
                (p.padding log.length % 2 ^ 32)) b)])).1 (observe p s (log ++
            [Event.GetCurrentPadding ac (p.padding log.length % 2 ^ 32)] ++ [Event.Sleep
              (sleepTime (framesToWrite b - availableFrames s.outputBufferFrames
                (p.padding log.length % 2 ^ 32)) b)])).2
          refine ⟨?_, ?_⟩
          · refine Extends.trans ?_ h1
            refine Extends.trans ?_ (Extends.mono (observe_extends _ _ _) (by simp))
            exact Extends.snoc _ (Extends.snoc _ (Extends.refl _ _) (by simp [Event.kind]))
              (by simp [Event.kind])
          · rw [h2]; rfl
        · refine ⟨?_, rfl⟩
          refine Extends.trans ?_ (Extends.mono (observe_extends _ _ _) (by simp))
          exact Extends.snoc _ (Extends.snoc _ (Extends.refl _ _) (by simp [Event.kind]))
            (by simp [Event.kind])
    · refine ⟨?_, rfl⟩
      refine Extends.trans ?_ (Extends.mono (observe_extends _ _ _) (by simp))
      exact Extends.snoc _ (Extends.refl _ _) (by simp [Event.kind])

/-- The shape of what `finish` appends: when it returns `true` the load of
`StatePlaying`, the three steps of the write, the two releases and the call of
the owner; otherwise events that are no call of the owner and no copy. -/
theorem finish_spec (p : Platform) (b : Buffer) (rc ac : Nat) (w : Waited) :
    (finish p b rc ac w).outcome ≠ Outcome.pending ∧
    (finish p b rc ac w).session =
      { w.session with state := (finish p b rc ac w).session.state } ∧
    ((finish p b rc ac w).outcome = Outcome.returned true →
      framesToWrite b ≤ w.availableFrames ∧
      ∃ sink, (finish p b rc ac w).log = w.log ++
        [Event.LoadState StatePlaying, Event.GetBuffer sink (framesToWrite b) true,
         Event.Memcpy (4 * toUINT32 b.Samples), Event.ReleaseBuffer rc (framesToWrite b),
         Event.Release rc, Event.Release ac, Event.OnBufferProcessed b]) ∧
    ((finish p b rc ac w).outcome ≠ Outcome.returned true →
      (∃ st, (finish p b rc ac w).log = w.log ++ [Event.LoadState st] ∧
          (finish p b rc ac w).outcome = Outcome.crashed) ∨
      (∃ st, (finish p b rc ac w).log = w.log ++
          [Event.LoadState st, Event.Release rc, Event.Release ac] ∧
          (finish p b rc ac w).outcome = Outcome.returned false ∧
          (st ≠ StatePlaying ∨ w.availableFrames < framesToWrite b)) ∨
      (∃ sink, (finish p b rc ac w).log = w.log ++
          [Event.LoadState StatePlaying, Event.GetBuffer sink (framesToWrite b) false,
           Event.Release rc, Event.Release ac] ∧
          (finish p b rc ac w).outcome = Outcome.returned false ∧
          framesToWrite b ≤ w.availableFrames)) := by
  simp only [finish, observe]
  split
  · rename_i hp
    split
    · rename_i ha
      split
      · refine ⟨by simp, rfl, by simp, ?_⟩
        intro _
        left
        exact ⟨(p.control w.log.length).getD w.session.state, rfl, rfl⟩
      · rename_i sink hsink
        split
        · rename_i hok
          simp at hok
          refine ⟨by simp, rfl, ?_, by simp⟩
          intro _
          refine ⟨ha, sink, ?_⟩
          simp [hp, hok]
        · rename_i hok
          simp at hok
          refine ⟨by simp, rfl, by simp, ?_⟩
          intro _
          right; right
          refine ⟨sink, ?_, rfl, ha⟩
          simp [hp, hok]
    · rename_i ha
      refine ⟨by simp, rfl, by simp, ?_⟩
      intro _
      right; left
      exact ⟨(p.control w.log.length).getD w.session.state, by simp, rfl, Or.inr (by omega)⟩
  · rename_i hp
    refine ⟨by simp, rfl, by simp, ?_⟩
    intro _
    right; left
    exact ⟨(p.control w.log.length).getD w.session.state, by simp, rfl, Or.inl hp⟩

/-- The branches of `Play` before the wait loop: either it ends there, not with
`true`, having appended no poll, sleep, load, write or call of the owner, or
it goes on with `deliver` on the configured session. -/
theorem Play_shape (fuel : Nat) (p : Platform) (b : Buffer) (s : Session) (log : List Event) :
    ((Play fuel p b s log).outcome ≠ Outcome.returned true ∧
      (Play fuel p b s log).outcome ≠ Outcome.pending ∧
      Extends [Kind.acquire, Kind.probe, Kind.init, Kind.service, Kind.start, Kind.volume,
        Kind.halt, Kind.release, Kind.addref] log (Play fuel p b s log).log) ∨
    (s.state ≠ StatePaused ∧ (Configure p b s log).outcome = Outcome.returned true ∧
      ∃ rc ac, (Configure p b s log).session.renderClient = some rc ∧
        (Configure p b s log).session.audioClient = some ac ∧
        Play fuel p b s log = deliver fuel p b rc ac (Configure p b s log).session
          ((Configure p b s log).log ++ [Event.AddRef rc, Event.AddRef ac])) := by
  obtain ⟨c1, c2, c3, c4⟩ := Configure_spec p b s log
  unfold Play
  by_cases hp : s.state = StatePaused
  · left
    simp only [hp, if_true]
    exact ⟨by simp, by simp, Extends.refl _ _⟩
  · simp only [hp, if_false]
    generalize Configure p b s log = c at *
    rcases c with ⟨o, cs, cl⟩
    cases o with
    | returned v =>
      cases v with
      | false =>
        left
        refine ⟨by simp, by simp, ?_⟩
        exact Extends.trans (Extends.mono c1 (by simp))
          (Extends.mono (Reset_extends cs cl) (by simp))
      | true =>
        simp only
        cases hr : cs.renderClient with
        | none =>
          left
          exact ⟨by simp, by simp, Extends.mono c1 (by simp)⟩
        | some rc =>
          cases ha : cs.audioClient with
          | none =>
            left
            refine ⟨by simp, by simp, ?_⟩
            exact Extends.snoc _ (Extends.mono c1 (by simp)) (by simp [Event.kind])
          | some ac =>
            right
            refine ⟨hp, ?_, rc, ac, ?_, ?_, ?_⟩ <;> simp [hr, ha]
    | crashed =>
      left
      exact ⟨by simp, by simp, Extends.mono c1 (by simp)⟩
    | pending => exact absurd rfl c2

/-- The branches of `deliver`. -/
theorem deliver_shape (fuel : Nat) (p : Platform) (b : Buffer) (rc ac : Nat)
    (s : Session) (log : List Event) :
    (toUINT32 b.Channels = 0 ∧ deliver fuel p b rc ac s log = ⟨Outcome.crashed, s, log⟩) ∨
    (toUINT32 b.Channels ≠ 0 ∧
      ((waitLoop p b ac fuel s log).outcome = Outcome.crashed ∨
        (waitLoop p b ac fuel s log).outcome = Outcome.pending) ∧
      deliver fuel p b rc ac s log = ⟨(waitLoop p b ac fuel s log).outcome,
        (waitLoop p b ac fuel s log).session, (waitLoop p b ac fuel s log).log⟩) ∨
    (toUINT32 b.Channels ≠ 0 ∧
      (∃ v, (waitLoop p b ac fuel s log).outcome = Outcome.returned v) ∧
      deliver fuel p b rc ac s log = finish p b rc ac (waitLoop p b ac fuel s log)) := by
  unfold deliver
  by_cases hc : toUINT32 b.Channels = 0
  · left
    simp [hc]
  · right
    simp only [hc, if_false]
    generalize waitLoop p b ac fuel s log = w
    rcases w with ⟨o, a, ws, wl⟩
    cases o with
    | returned v => right; exact ⟨hc, ⟨v, rfl⟩, rfl⟩
    | crashed => left; exact ⟨hc, Or.inl rfl, rfl⟩
    | pending => left; exact ⟨hc, Or.inr rfl, rfl⟩

theorem newEvents_append (log new : List Event) : newEvents log (log ++ new) = new := by
  simp [newEvents]

theorem notifications_append (a b : List Event) :
    notifications (a ++ b) = notifications a + notifications b := by
  simp [notifications, List.countP_append]

theorem notifications_zero {l : List Event} (h : ∀ e ∈ l, e.kind ≠ Kind.notify) :
    notifications l = 0 := by
  simp only [notifications, List.countP_eq_zero]
  intro e he
  simpa using h e he

theorem notifications_extends {K : List Kind} {a b : List Event} (h : Extends K a b)
    (hK : Kind.notify ∉ K) : notifications (newEvents a b) = 0 := by
  obtain ⟨n, rfl, hn⟩ := h
  rw [newEvents_append]
  exact notifications_zero fun e he hk => hK (hk ▸ hn e he)

/-- C1: when the transport state is Paused, `Play` returns false and has no
effect: the session (transport state, stored format, stored volume, every
handle) is unchanged and the log is unchanged, so that no device operation is
performed and the owner is not called. -/
theorem Play_paused_no_effect (fuel : Nat) (p : Platform) (b : Buffer) (s : Session)
    (log : List Event) (h : s.state = StatePaused) :
    (Play fuel p b s log).outcome = Outcome.returned false ∧
    (Play fuel p b s log).session = s ∧
    (Play fuel p b s log).log = log ∧
    newEvents log (Play fuel p b s log).log = [] ∧
    notifications (newEvents log (Play fuel p b s log).log) = 0 := by
  simp [Play, h, newEvents, notifications]

/-- An instance of `Play_paused_no_effect`: the session of the first `Play`, paused. -/
theorem Play_paused_no_effect_witness :
    (Pause firstPlay.session firstPlay.log).1.state = StatePaused ∧
    (Play 1 okPlatform stereo (Pause firstPlay.session firstPlay.log).1
        (Pause firstPlay.session firstPlay.log).2).outcome = Outcome.returned false ∧
    (Play 1 okPlatform stereo (Pause firstPlay.session firstPlay.log).1
        (Pause firstPlay.session firstPlay.log).2).session
      = (Pause firstPlay.session firstPlay.log).1 :=
  have h := Play_paused_no_effect 1 okPlatform stereo (Pause firstPlay.session firstPlay.log).1
    (Pause firstPlay.session firstPlay.log).2 (by decide)
  ⟨by decide, h.1, h.2.1⟩

theorem Reset_session (s : Session) (log : List Event) :
    (Reset s log).1 = { s with
      audioClient := none, enumerator := none, device := none, renderClient := none,
      simpleAudioVolume := none, audioStreamVolume := none, audioClock := none,
      waveFormat := zeroFormat } := rfl

theorem finish_extends (p : Platform) (b : Buffer) (rc ac : Nat) (w : Waited) :
    Extends [Kind.load, Kind.write, Kind.release, Kind.notify] w.log
      (finish p b rc ac w).log := by
  obtain ⟨_, _, f3, f4⟩ := finish_spec p b rc ac w
  by_cases h : (finish p b rc ac w).outcome = Outcome.returned true
  · obtain ⟨_, sink, e⟩ := f3 h
    rw [e]
    exact Extends.append _ _ (by simp [Event.kind])
  · rcases f4 h with ⟨st, e, _⟩ | ⟨st, e, _⟩ | ⟨sink, e, _⟩ <;> rw [e] <;>
      exact Extends.append _ _ (by simp [Event.kind])

theorem deliver_extends (fuel : Nat) (p : Platform) (b : Buffer) (rc ac : Nat)
    (s : Session) (log : List Event) :
    Extends [Kind.poll, Kind.sleep, Kind.load, Kind.write, Kind.release, Kind.notify] log
      (deliver fuel p b rc ac s log).log := by
  have hw := (waitLoop_extends p b ac fuel s log).1
  rcases deliver_shape fuel p b rc ac s log with ⟨_, e⟩ | ⟨_, _, e⟩ | ⟨_, _, e⟩ <;> rw [e]
  · exact Extends.refl _ _
  · exact Extends.mono hw (by simp)
  · exact Extends.trans (Extends.mono hw (by simp))
      (Extends.mono (finish_extends p b rc ac _) (by simp))

/-- What `Play` appends, given the kinds of what `Configure` appends. -/
theorem Play_extends (fuel : Nat) (p : Platform) (b : Buffer) (s : Session) (log : List Event)
    (K : List Kind) (hK : Extends K log (Configure p b s log).log) :
    Extends (K ++ [Kind.halt, Kind.release, Kind.addref, Kind.poll, Kind.sleep, Kind.load,
      Kind.write, Kind.notify]) log (Play fuel p b s log).log := by
  have hK2 : Extends (K ++ [Kind.halt, Kind.release, Kind.addref, Kind.poll, Kind.sleep,
      Kind.load, Kind.write, Kind.notify]) log (Configure p b s log).log :=
    Extends.mono hK (fun k hk => List.mem_append_left _ hk)
  unfold Play
  by_cases hp : s.state = StatePaused
  · simp only [hp, if_true]
    exact Extends.refl _ _
  · simp only [hp, if_false]
    generalize Configure p b s log = c at *
    rcases c with ⟨o, cs, cl⟩
    cases o with
    | returned v =>
      cases v with
      | false =>
        exact Extends.trans hK2 (Extends.mono (Reset_extends cs cl) (by simp))
      | true =>
        simp only
        cases hr : cs.renderClient with
        | none => exact hK2
        | some rc =>
          cases ha : cs.audioClient with
          | none => exact Extends.snoc _ hK2 (by simp [Event.kind])
          | some ac =>
            simp only
            refine Extends.trans (Extends.trans hK2 (?_ : Extends _ cl
              (cl ++ [Event.AddRef rc, Event.AddRef ac])))
              (Extends.mono (deliver_extends fuel p b rc ac cs _) (by simp))
            exact Extends.append _ _ (by simp [Event.kind])
    | crashed => exact hK2
    | pending => exact hK2

theorem Configure_extends_of_client (p : Platform) (b : Buffer) (s : Session)
    (log : List Event) (ac : Nat) (h : s.audioClient = some ac) :
    Extends [Kind.probe, Kind.init, Kind.service, Kind.start, Kind.volume] log
      (Configure p b s log).log := by
  cases hm : formatMatches s.waveFormat b with
  | true =>
    rw [Configure_fast p b s log ac h hm]
    exact Extends.refl _ _
  | false =>
    rw [Configure_slow p b s log ac h hm]
    exact (reconfigure_spec p b s log ac h).1

theorem Stop_session (p : Platform) (s : Session) (log : List Event) :
    (Stop p s log).1 = { s with state := StateStopped } := by
  unfold Stop
  simp only
  split <;> rfl

theorem lastLoad_append (a b : List Event) :
    lastLoad (a ++ b) = (lastLoad b).or (lastLoad a) := by
  simp [lastLoad, List.findSome?_append]

theorem lastPoll_append (a b : List Event) :
    lastPoll (a ++ b) = (lastPoll b).or (lastPoll a) := by
  simp [lastPoll, List.findSome?_append]

theorem lastLoad_none {l : List Event} (h : ∀ e ∈ l, e.kind ≠ Kind.load) :
    lastLoad l = none := by
  simp only [lastLoad, List.findSome?_eq_none_iff, List.mem_reverse]
  intro e he
  have := h e he
  cases e <;> simp [Event.kind, loadOf] at this ⊢

theorem lastPoll_none {l : List Event} (h : ∀ e ∈ l, e.kind ≠ Kind.poll) :
    lastPoll l = none := by
  simp only [lastPoll, List.findSome?_eq_none_iff, List.mem_reverse]
  intro e he
  have := h e he
  cases e <;> simp [Event.kind, pollOf] at this ⊢

/-- One iteration of the wait loop, with the log written out. -/
theorem waitLoop_succ (p : Platform) (b : Buffer) (ac : Nat) (n : Nat)
    (s : Session) (log : List Event) :
    waitLoop p b ac (n + 1) s log =
      if availableFrames s.outputBufferFrames (p.padding log.length % 2 ^ 32)
          < framesToWrite b then
        if toUINT32 b.SampleRate = 0 then
          ⟨Outcome.crashed,
            availableFrames s.outputBufferFrames (p.padding log.length % 2 ^ 32), s,
            log ++ [Event.GetCurrentPadding ac (p.padding log.length % 2 ^ 32)]⟩
        else if (p.control (log.length + 2)).getD s.state = StatePlaying then
          waitLoop p b ac n { s with state := StatePlaying }
            (log ++ [Event.GetCurrentPadding ac (p.padding log.length % 2 ^ 32),
              Event.Sleep (sleepTime (framesToWrite b - availableFrames s.outputBufferFrames
                (p.padding log.length % 2 ^ 32)) b),
              Event.LoadState StatePlaying])
        else
          ⟨Outcome.returned true,
            availableFrames s.outputBufferFrames (p.padding log.length % 2 ^ 32),
            { s with state := (p.control (log.length + 2)).getD s.state },
            log ++ [Event.GetCurrentPadding ac (p.padding log.length % 2 ^ 32),
              Event.Sleep (sleepTime (framesToWrite b - availableFrames s.outputBufferFrames
                (p.padding log.length % 2 ^ 32)) b),
              Event.LoadState ((p.control (log.length + 2)).getD s.state)]⟩
      else
        ⟨Outcome.returned true,
          availableFrames s.outputBufferFrames (p.padding log.length % 2 ^ 32),
          { s with state := (p.control (log.length + 1)).getD s.state },
          log ++ [Event.GetCurrentPadding ac (p.padding log.length % 2 ^ 32),
            Event.LoadState ((p.control (log.length + 1)).getD s.state)]⟩ := by
  simp only [waitLoop, observe, List.length_append, List.length_singleton, List.append_assoc,
    List.singleton_append, List.length_cons, List.length_nil]
  split
  · split
    · rfl
    · split
      · rename_i h
        simp only [Nat.zero_add, Nat.reduceAdd] at h ⊢
        rw [h]
        rfl
      · rfl
  · rfl

/-- The wait loop starts with a poll, unless it has no fuel. -/
theorem waitLoop_first (p : Platform) (b : Buffer) (ac : Nat) (fuel : Nat)
    (s : Session) (log : List Event) :
    ((waitLoop p b ac fuel s log).log = log ∧
      (waitLoop p b ac fuel s log).outcome = Outcome.pending) ∨
    ∃ q rest, (waitLoop p b ac fuel s log).log = log ++ Event.GetCurrentPadding ac q :: rest := by
  cases fuel with
  | zero => left; exact ⟨rfl, rfl⟩
  | succ n =>
    right
    rw [waitLoop_succ]
    generalize p.padding log.length % 2 ^ 32 = q
    split
    · split
      · exact ⟨q, [], rfl⟩
      · split
        · generalize sleepTime (framesToWrite b - availableFrames s.outputBufferFrames q) b = d
          obtain ⟨W, hW, _⟩ := (waitLoop_extends p b ac n { s with state := StatePlaying }
            (log ++ [Event.GetCurrentPadding ac q, Event.Sleep d,
              Event.LoadState StatePlaying])).1
          exact ⟨q, [Event.Sleep d, Event.LoadState StatePlaying] ++ W, by rw [hW]; simp⟩
        · exact ⟨q, _, rfl⟩
    · exact ⟨q, _, rfl⟩

/-- When the wait loop is left, the headroom it hands on is the one of its most
recent poll. -/
theorem waitLoop_left (p : Platform) (b : Buffer) (ac : Nat) (fuel : Nat) :
    ∀ (s : Session) (log : List Event) (v : Bool),
      (waitLoop p b ac fuel s log).outcome = Outcome.returned v →
      ∃ W q, (waitLoop p b ac fuel s log).log = log ++ W ∧
        (∀ e ∈ W, e.kind ∈ [Kind.poll, Kind.sleep, Kind.load]) ∧
        lastPoll W = some q ∧ (∃ t, q = p.padding t % 2 ^ 32) ∧
        (waitLoop p b ac fuel s log).availableFrames
          = availableFrames s.outputBufferFrames q := by
  induction fuel with
  | zero =>
    intro s log v h
    simp [waitLoop] at h
  | succ n ih =>
    intro s log v
    rw [waitLoop_succ]
    have ht : ∃ t, p.padding log.length % 2 ^ 32 = p.padding t % 2 ^ 32 := ⟨_, rfl⟩
    generalize p.padding log.length % 2 ^ 32 = q at ht ⊢
    split
    · split
      · intro h; simp at h
      · generalize sleepTime (framesToWrite b - availableFrames s.outputBufferFrames q) b = d
        split
        · intro h
          obtain ⟨W, q2, hW, hk, hq, ht2, ha⟩ := ih _ _ v h
          refine ⟨[Event.GetCurrentPadding ac q, Event.Sleep d,
            Event.LoadState StatePlaying] ++ W, q2, by rw [hW]; simp, ?_, ?_, ht2, ha⟩
          · intro e he
            simp only [List.mem_append, List.mem_cons, List.mem_singleton,
              List.not_mem_nil, or_false] at he
            rcases he with (rfl | rfl | rfl) | he
            · simp [Event.kind]
            · simp [Event.kind]
            · simp [Event.kind]
            · exact hk e he
          · rw [lastPoll_append, hq]
            rfl
        · intro _
          refine ⟨_, q, rfl, ?_, ?_, ht, rfl⟩
          · intro e he
            simp only [List.mem_cons, List.mem_singleton, List.not_mem_nil, or_false] at he
            rcases he with rfl | rfl | rfl <;> simp [Event.kind]
          · simp [lastPoll, pollOf]
    · intro _
      refine ⟨_, q, rfl, ?_, ?_, ht, rfl⟩
      · intro e he
        simp only [List.mem_cons, List.mem_singleton, List.not_mem_nil, or_false] at he
        rcases he with rfl | rfl <;> simp [Event.kind]
      · simp [lastPoll, pollOf]

/-- After a poll with insufficient headroom the wait loop sleeps and loads the
state; when that is Playing it polls again (or has used up its fuel), when it is
not it stops polling. -/
theorem waitLoop_poll (p : Platform) (b : Buffer) (ac : Nat) (fuel : Nat) :
    ∀ (s : Session) (log pre : List Event) (ac2 q : Nat) (post : List Event),
      (waitLoop p b ac fuel s log).log = log ++ (pre ++ Event.GetCurrentPadding ac2 q :: post) →
      availableFrames s.outputBufferFrames q < framesToWrite b →
      (post = [] ∧ (waitLoop p b ac fuel s log).outcome = Outcome.crashed) ∨
      ∃ d st rest, post = Event.Sleep d :: Event.LoadState st :: rest ∧
        (st = StatePlaying →
          (rest = [] ∧ (waitLoop p b ac fuel s log).outcome = Outcome.pending) ∨
          ∃ q2 rest2, rest = Event.GetCurrentPadding ac q2 :: rest2) ∧
        (st ≠ StatePlaying → rest = []) := by
  induction fuel with
  | zero =>
    intro s log pre ac2 q post h _
    simp [waitLoop] at h
  | succ n ih =>
    intro s log pre ac2 q post
    rw [waitLoop_succ]
    generalize p.padding log.length % 2 ^ 32 = q0
    split
    · rename_i hlt
      split
      · intro h _
        left
        simp only [List.append_cancel_left_eq] at h
        rcases pre with _ | ⟨x, pre⟩
        · simp at h
          exact ⟨h.2, rfl⟩
        · simp at h
      · generalize sleepTime (framesToWrite b - availableFrames s.outputBufferFrames q0) b = d
        split
        · intro h ha
          obtain ⟨W, hW, _⟩ := (waitLoop_extends p b ac n { s with state := StatePlaying }
            (log ++ [Event.GetCurrentPadding ac q0, Event.Sleep d,
              Event.LoadState StatePlaying])).1
          have h2 := h
          rw [hW, List.append_assoc, List.append_cancel_left_eq] at h2
          rcases pre with _ | ⟨x, _ | ⟨y, _ | ⟨z, pre⟩⟩⟩
          · simp at h2
            obtain ⟨⟨rfl, rfl⟩, rfl⟩ := h2
            right
            refine ⟨d, StatePlaying, W, rfl, ?_, fun hne => absurd rfl hne⟩
            intro _
            rcases waitLoop_first p b ac n { s with state := StatePlaying }
              (log ++ [Event.GetCurrentPadding ac q0, Event.Sleep d,
                Event.LoadState StatePlaying]) with ⟨e1, e2⟩ | ⟨q2, rest2, e1⟩
            · left
              rw [hW] at e1
              exact ⟨by simpa using e1, e2⟩
            · right
              rw [hW, List.append_cancel_left_eq] at e1
              exact ⟨q2, rest2, e1⟩
          · simp at h2
          · simp at h2
          · simp at h2
            obtain ⟨rfl, rfl, rfl, h3⟩ := h2
            exact ih { s with state := StatePlaying } _ pre ac2 q post
              (by rw [hW, h3]) ha
        · rename_i hst
          intro h _
          right
          simp only [List.append_cancel_left_eq] at h
          rcases pre with _ | ⟨x, _ | ⟨y, _ | ⟨z, pre⟩⟩⟩
          · simp at h
            obtain ⟨⟨rfl, rfl⟩, rfl⟩ := h
            exact ⟨d, _, [], rfl, fun hp => absurd hp hst, fun _ => rfl⟩
          · simp at h
          · simp at h
          · simp at h
    · rename_i hge
      intro h ha
      simp only [List.append_cancel_left_eq] at h
      rcases pre with _ | ⟨x, _ | ⟨y, pre⟩⟩
      · simp at h
        obtain ⟨⟨rfl, rfl⟩, rfl⟩ := h
        exact absurd ha hge
      · simp at h
      · simp at h

/-- Where an event of some kind sits in a list of three parts, the first and
the last of which hold no event of that kind. -/
theorem split_middle {A W F pre post : List Event} {e : Event}
    (h : A ++ W ++ F = pre ++ e :: post)
    (hA : ∀ x ∈ A, x.kind ≠ e.kind) (hF : ∀ x ∈ F, x.kind ≠ e.kind) :
    ∃ m n, W = m ++ e :: n ∧ pre = A ++ m ∧ post = n ++ F := by
  rw [List.append_assoc] at h
  rcases List.append_eq_append_iff.mp h with ⟨a, e1, e2⟩ | ⟨c, e1, e2⟩
  · -- pre = A ++ a, W ++ F = a ++ e :: post
    rcases List.append_eq_append_iff.mp e2 with ⟨a2, e3, e4⟩ | ⟨c2, e3, e4⟩
    · -- a = W ++ a2, F = a2 ++ e :: post
      exact absurd rfl (hF e (by rw [e4]; simp))
    · -- W = a ++ c2, e :: post = c2 ++ F
      rcases c2 with _ | ⟨x, c2⟩
      · simp at e4
        exact absurd rfl (hF e (by rw [← e4]; simp))
      · simp at e4
        obtain ⟨rfl, rfl⟩ := e4
        exact ⟨a, c2, e3, e1, rfl⟩
  · -- A = pre ++ c, e :: post = c ++ (W ++ F)
    rcases c with _ | ⟨x, c⟩
    · simp at e2 e1
      subst e1
      rcases W with _ | ⟨y, W⟩
      · simp at e2
        exact absurd rfl (hF e (by rw [← e2]; simp))
      · simp at e2
        obtain ⟨rfl, rfl⟩ := e2
        exact ⟨[], W, rfl, by simp, rfl⟩
    · simp at e2
      obtain ⟨rfl, _⟩ := e2
      exact absurd rfl (hA e (by rw [e1]; simp))

theorem availableFrames_eq {C q : Nat} (hq : q ≤ C) (hC : C < 2 ^ 32) :
    availableFrames C q = C - q := by
  unfold availableFrames
  norm_num at hC ⊢
  omega

/-- Every poll of the wait loop is made on the client `ac` and reports a value
of the platform reduced to `UINT32`. -/
theorem waitLoop_polls (p : Platform) (b : Buffer) (ac : Nat) (fuel : Nat) :
    ∀ (s : Session) (log W : List Event),
      (waitLoop p b ac fuel s log).log = log ++ W →
      ∀ a q, Event.GetCurrentPadding a q ∈ W → a = ac ∧ ∃ t, q = p.padding t % 2 ^ 32 := by
  induction fuel with
  | zero =>
    intro s log W h a q hm
    simp [waitLoop] at h
    subst h
    simp at hm
  | succ n ih =>
    intro s log W
    rw [waitLoop_succ]
    have ht : ∃ t, p.padding log.length % 2 ^ 32 = p.padding t % 2 ^ 32 := ⟨_, rfl⟩
    generalize p.padding log.length % 2 ^ 32 = q0 at ht ⊢
    split
    · split
      · intro h a q hm
        simp only [List.append_cancel_left_eq] at h
        subst h
        simp at hm
        obtain ⟨rfl, rfl⟩ := hm
        exact ⟨rfl, ht⟩
      · generalize sleepTime (framesToWrite b - availableFrames s.outputBufferFrames q0) b = d
        split
        · intro h a q hm
          obtain ⟨W2, hW2, _⟩ := (waitLoop_extends p b ac n { s with state := StatePlaying }
            (log ++ [Event.GetCurrentPadding ac q0, Event.Sleep d,
              Event.LoadState StatePlaying])).1
          have h2 := h
          rw [hW2, List.append_assoc, List.append_cancel_left_eq] at h2
          subst h2
          simp only [List.mem_append, List.mem_cons, List.mem_singleton,
            List.not_mem_nil, or_false] at hm
          rcases hm with (hm | hm | hm) | hm
          · simp at hm
            obtain ⟨rfl, rfl⟩ := hm
            exact ⟨rfl, ht⟩
          · simp at hm
          · simp at hm
          · exact ih _ _ W2 hW2 a q hm
        · intro h a q hm
          simp only [List.append_cancel_left_eq] at h
          subst h
          simp at hm
          obtain ⟨rfl, rfl⟩ := hm
          exact ⟨rfl, ht⟩
    · intro h a q hm
      simp only [List.append_cancel_left_eq] at h
      subst h
      simp at hm
      obtain ⟨rfl, rfl⟩ := hm
      exact ⟨rfl, ht⟩

/-- In front of a write that follows a load of the state, the most recent load
is that load and no poll has been made since. -/
theorem before_write {F m n : List Event} {e : Event} {st : TransportState}
    (h : Event.LoadState st :: F = m ++ e :: n) (he : e.kind = Kind.write)
    (hF : ∀ x ∈ F, x.kind ≠ Kind.load ∧ x.kind ≠ Kind.poll) :
    lastLoad m = some st ∧ lastPoll m = none := by
  rcases m with _ | ⟨x, m⟩
  · simp at h
    rw [← h.1] at he
    simp [Event.kind] at he
  · simp at h
    obtain ⟨rfl, rfl⟩ := h
    have hm : ∀ x ∈ m, x.kind ≠ Kind.load ∧ x.kind ≠ Kind.poll :=
      fun x hx => hF x (by simp [hx])
    constructor
    · have : lastLoad m = none := lastLoad_none fun x hx => (hm x hx).1
      have e2 := lastLoad_append [Event.LoadState st] m
      simp only [List.singleton_append] at e2
      rw [e2, this]
      simp [lastLoad, loadOf]
    · have : lastPoll m = none := lastPoll_none fun x hx => (hm x hx).2
      have e2 := lastPoll_append [Event.LoadState st] m
      simp only [List.singleton_append] at e2
      rw [e2, this]
      simp [lastPoll, pollOf]

/-- The throttle in `deliver`: a write follows a load of Playing and a most
recent poll with enough headroom; a poll with too little headroom is followed
by a sleep, a load of the state and, when that is Playing, another poll. -/
theorem deliver_throttle (fuel : Nat) (p : Platform) (b : Buffer) (rc ac : Nat)
    (s : Session) (log : List Event) (hC : s.outputBufferFrames < 2 ^ 32)
    (hq : ∀ t, p.padding t ≤ s.outputBufferFrames) :
    (deliver fuel p b rc ac s log).session.outputBufferFrames = s.outputBufferFrames ∧
    ∃ D, (deliver fuel p b rc ac s log).log = log ++ D ∧
      (∀ pre e post, D = pre ++ e :: post → e.kind = Kind.write →
        lastLoad pre = some StatePlaying ∧
        ∃ q, lastPoll pre = some q ∧ q ≤ s.outputBufferFrames ∧
          framesToWrite b ≤ s.outputBufferFrames - q) ∧
      (∀ pre a q post, D = pre ++ Event.GetCurrentPadding a q :: post →
        s.outputBufferFrames - q < framesToWrite b →
        (post = [] ∧ (deliver fuel p b rc ac s log).outcome = Outcome.crashed) ∨
        ∃ d st rest, post = Event.Sleep d :: Event.LoadState st :: rest ∧
          (st = StatePlaying →
            (rest = [] ∧ (deliver fuel p b rc ac s log).outcome = Outcome.pending) ∨
            ∃ q2 rest2, rest = Event.GetCurrentPadding a q2 :: rest2)) := by
  have hle : ∀ t, p.padding t % 2 ^ 32 ≤ s.outputBufferFrames :=
    fun t => le_trans (Nat.mod_le _ _) (hq t)
  obtain ⟨⟨W, hW, hkW⟩, hws⟩ := waitLoop_extends p b ac fuel s log
  have hwobf : (waitLoop p b ac fuel s log).session.outputBufferFrames
      = s.outputBufferFrames := by rw [hws]
  -- a poll inside the wait trace
  have hpoll : ∀ m a q n, W = m ++ Event.GetCurrentPadding a q :: n →
      s.outputBufferFrames - q < framesToWrite b →
      a = ac ∧ ((n = [] ∧ (waitLoop p b ac fuel s log).outcome = Outcome.crashed) ∨
      ∃ d st rest, n = Event.Sleep d :: Event.LoadState st :: rest ∧
        (st = StatePlaying →
          (rest = [] ∧ (waitLoop p b ac fuel s log).outcome = Outcome.pending) ∨
          ∃ q2 rest2, rest = Event.GetCurrentPadding ac q2 :: rest2)) := by
    intro m a q n hm hlt
    obtain ⟨ha, t, hqt⟩ := waitLoop_polls p b ac fuel s log W hW a q (by rw [hm]; simp)
    refine ⟨ha, ?_⟩
    have := waitLoop_poll p b ac fuel s log m a q n (by rw [hW, hm])
      (by rw [hqt, availableFrames_eq (hle t) hC, ← hqt]; exact hlt)
    rcases this with h | ⟨d, st, rest, h1, h2, _⟩
    · exact Or.inl h
    · exact Or.inr ⟨d, st, rest, h1, h2⟩
  rcases deliver_shape fuel p b rc ac s log with ⟨_, e⟩ | ⟨_, ho, e⟩ | ⟨_, ⟨v, hv⟩, e⟩
  · rw [e]
    refine ⟨rfl, [], by simp, ?_, ?_⟩
    · intro pre e post h; simp at h
    · intro pre a q post h; simp at h
  · rw [e]
    refine ⟨hwobf, W, hW, ?_, ?_⟩
    · intro pre e post h he
      have := hkW e (by rw [h]; simp)
      rw [he] at this
      simp at this
    · intro pre a q post h hlt
      obtain ⟨rfl, h2⟩ := hpoll pre a q post h hlt
      exact h2
  · rw [e]
    obtain ⟨f1, f2, f3, f4⟩ := finish_spec p b rc ac (waitLoop p b ac fuel s log)
    obtain ⟨W2, q, hW2, _, hlp, ⟨t, ht⟩, hav⟩ := waitLoop_left p b ac fuel s log v hv
    have hWW : W2 = W := by
      rw [hW] at hW2
      exact (List.append_cancel_left hW2).symm
    rw [hWW] at hlp
    rw [ht, availableFrames_eq (hle t) hC, ← ht] at hav
    have hqle : q ≤ s.outputBufferFrames := by rw [ht]; exact hle t
    have hfobf : (finish p b rc ac (waitLoop p b ac fuel s log)).session.outputBufferFrames
        = s.outputBufferFrames := by rw [f2]; exact hwobf
    -- the common part: the shape of what `finish` appended
    have main : ∀ F, (finish p b rc ac (waitLoop p b ac fuel s log)).log
          = (waitLoop p b ac fuel s log).log ++ F →
        (∀ x ∈ F, x.kind ≠ Kind.poll) →
        (∀ m e n, F = m ++ e :: n → e.kind = Kind.write →
          lastLoad m = some StatePlaying ∧ lastPoll m = none ∧
          framesToWrite b ≤ (waitLoop p b ac fuel s log).availableFrames) →
        ∃ D, (finish p b rc ac (waitLoop p b ac fuel s log)).log = log ++ D ∧
          (∀ pre e post, D = pre ++ e :: post → e.kind = Kind.write →
            lastLoad pre = some StatePlaying ∧
            ∃ q, lastPoll pre = some q ∧ q ≤ s.outputBufferFrames ∧
              framesToWrite b ≤ s.outputBufferFrames - q) ∧
          (∀ pre a q post, D = pre ++ Event.GetCurrentPadding a q :: post →
            s.outputBufferFrames - q < framesToWrite b →
            (post = [] ∧ (finish p b rc ac (waitLoop p b ac fuel s log)).outcome
              = Outcome.crashed) ∨
            ∃ d st rest, post = Event.Sleep d :: Event.LoadState st :: rest ∧
              (st = StatePlaying →
                (rest = [] ∧ (finish p b rc ac (waitLoop p b ac fuel s log)).outcome
                  = Outcome.pending) ∨
                ∃ q2 rest2, rest = Event.GetCurrentPadding a q2 :: rest2)) := by
      intro F hF hFp hFw
      refine ⟨W ++ F, by rw [hF, hW, List.append_assoc], ?_, ?_⟩
      · intro pre e post h he
        -- the write is in `F`, since `W` holds polls, sleeps and loads only
        have hsp : ∃ m n, F = m ++ e :: n ∧ pre = W ++ m := by
          rcases List.append_eq_append_iff.mp h with ⟨a, e1, e2⟩ | ⟨c, e1, e2⟩
          · exact ⟨a, post, e2, e1⟩
          · rcases c with _ | ⟨x, c⟩
            · simp at e1 e2
              exact ⟨[], post, e2.symm, by simp [e1]⟩
            · simp at e2
              obtain ⟨rfl, rfl⟩ := e2
              have := hkW e (by rw [e1]; simp)
              rw [he] at this
              simp at this
        obtain ⟨m, n, hm, rfl⟩ := hsp
        obtain ⟨g1, g2, g3⟩ := hFw m e n hm he
        refine ⟨by rw [lastLoad_append, g1]; rfl, q, by rw [lastPoll_append, g2, hlp]; rfl,
          hqle, ?_⟩
        rw [← hav]
        exact g3
      · intro pre a q post h hlt
        obtain ⟨m, n, h1, h2, h3⟩ := split_middle (A := []) (by simpa using h)
          (by simp) (fun x hx => by simpa [Event.kind] using hFp x hx)
        obtain ⟨rfl, h4⟩ := hpoll m a q n h1 hlt
        rcases h4 with ⟨_, h5⟩ | ⟨d, st, rest, h5, h6⟩
        · rw [hv] at h5
          simp at h5
        · right
          refine ⟨d, st, rest ++ F, by rw [h3, h5]; simp, ?_⟩
          intro hst
          rcases h6 hst with ⟨_, h7⟩ | ⟨q2, rest2, h7⟩
          · rw [hv] at h7
            simp at h7
          · right
            exact ⟨q2, rest2 ++ F, by rw [h7]; simp⟩
    refine ⟨hfobf, ?_⟩
    by_cases ht : (finish p b rc ac (waitLoop p b ac fuel s log)).outcome
        = Outcome.returned true
    · obtain ⟨hN, sink, ef⟩ := f3 ht
      refine main _ ef (by simp [Event.kind]) ?_
      intro m e n h he
      have := before_write h he (by simp [Event.kind])
      exact ⟨this.1, this.2, hN⟩
    · rcases f4 ht with ⟨st, ef, _⟩ | ⟨st, ef, _, _⟩ | ⟨sink, ef, _, hN⟩
      · refine main _ ef (by simp [Event.kind]) ?_
        intro m e n h he
        have : e ∈ [Event.LoadState st] := by rw [h]; simp
        simp at this
        rw [this] at he
        simp [Event.kind] at he
      · refine main _ ef (by simp [Event.kind]) ?_
        intro m e n h he
        have : e ∈ [Event.LoadState st, Event.Release rc, Event.Release ac] := by
          rw [h]; simp
        simp at this
        rcases this with rfl | rfl | rfl <;> simp [Event.kind] at he
      · refine main _ ef (by simp [Event.kind]) ?_
        intro m e n h he
        have := before_write h he (by simp [Event.kind])
        exact ⟨this.1, this.2, hN⟩

theorem deliver_frames (fuel : Nat) (p : Platform) (b : Buffer) (rc ac : Nat)
    (s : Session) (log : List Event) :
    (deliver fuel p b rc ac s log).session =
      { s with state := (deliver fuel p b rc ac s log).session.state } := by
  have hws := (waitLoop_extends p b ac fuel s log).2
  rcases deliver_shape fuel p b rc ac s log with ⟨_, e⟩ | ⟨_, _, e⟩ | ⟨_, _, e⟩ <;> rw [e]
  · exact hws
  · rw [(finish_spec p b rc ac _).2.1, hws]

/-- C3: throttle correctness. With device capacity `C` (the session's
`outputBufferFrames`, a `UINT32`), `N = framesToWrite b` and every polled
queued-frame count at most `C`: an event of the write (`GetBuffer`, the copy,
`ReleaseBuffer`) occurs in a run of `Play` only when the most recent load of
the transport state saw Playing and the most recent poll `q` left a headroom
`C - q` of at least `N`; a poll whose headroom is less than `N` is followed by
a sleep and a load of the state and, when that is Playing, by another poll
(unless the run was cut off there); and for `N > C` no event of the write
occurs. -/
theorem Play_throttle (fuel : Nat) (p : Platform) (b : Buffer) (s : Session)
    (log : List Event) (hs : s.outputBufferFrames < 2 ^ 32)
    (hq : ∀ t, p.padding t ≤ (Play fuel p b s log).session.outputBufferFrames) :
    (∀ pre e post, newEvents log (Play fuel p b s log).log = pre ++ e :: post →
      e.kind = Kind.write →
      lastLoad pre = some StatePlaying ∧
      ∃ q, lastPoll pre = some q ∧
        q ≤ (Play fuel p b s log).session.outputBufferFrames ∧
        framesToWrite b ≤ (Play fuel p b s log).session.outputBufferFrames - q) ∧
    (∀ pre a q post,
      newEvents log (Play fuel p b s log).log = pre ++ Event.GetCurrentPadding a q :: post →
      (Play fuel p b s log).session.outputBufferFrames - q < framesToWrite b →
      (post = [] ∧ (Play fuel p b s log).outcome = Outcome.crashed) ∨
      ∃ d st rest, post = Event.Sleep d :: Event.LoadState st :: rest ∧
        (st = StatePlaying →
          (rest = [] ∧ (Play fuel p b s log).outcome = Outcome.pending) ∨
          ∃ q2 rest2, rest = Event.GetCurrentPadding a q2 :: rest2)) ∧
    ((Play fuel p b s log).session.outputBufferFrames < framesToWrite b →
      ∀ e ∈ newEvents log (Play fuel p b s log).log, e.kind ≠ Kind.write) := by
  have key :
      (∀ pre e post, newEvents log (Play fuel p b s log).log = pre ++ e :: post →
        e.kind = Kind.write →
        lastLoad pre = some StatePlaying ∧
        ∃ q, lastPoll pre = some q ∧
          q ≤ (Play fuel p b s log).session.outputBufferFrames ∧
          framesToWrite b ≤ (Play fuel p b s log).session.outputBufferFrames - q) ∧
      (∀ pre a q post,
        newEvents log (Play fuel p b s log).log
          = pre ++ Event.GetCurrentPadding a q :: post →
        (Play fuel p b s log).session.outputBufferFrames - q < framesToWrite b →
        (post = [] ∧ (Play fuel p b s log).outcome = Outcome.crashed) ∨
        ∃ d st rest, post = Event.Sleep d :: Event.LoadState st :: rest ∧
          (st = StatePlaying →
            (rest = [] ∧ (Play fuel p b s log).outcome = Outcome.pending) ∨
            ∃ q2 rest2, rest = Event.GetCurrentPadding a q2 :: rest2)) := by
    rcases Play_shape fuel p b s log with ⟨_, _, h3⟩ | ⟨_, hct, rc, ac, _, _, e⟩
    · have hn := h3.newEvents.2
      constructor
      · intro pre e post h he
        have := hn e (by rw [h]; simp)
        rw [he] at this
        simp at this
      · intro pre a q post h _
        have := hn (Event.GetCurrentPadding a q) (by rw [h]; simp)
        simp [Event.kind] at this
    · obtain ⟨c1, _, _, c4⟩ := Configure_spec p b s log
      have hC : (Configure p b s log).session.outputBufferFrames < 2 ^ 32 := by
        rcases c4 hct with ⟨_, e1, _⟩ | ⟨_, _, e1⟩ | ⟨_, _, _, _, _, _, _, _, h, _⟩
        · rw [e1]; exact hs
        · rw [e1]; exact hs
        · exact h
      rw [e] at hq ⊢
      generalize (Configure p b s log).session = cs at *
      generalize (Configure p b s log).log = cl at *
      obtain ⟨P, rfl, hP⟩ := c1
      have hobf : (deliver fuel p b rc ac cs
          (log ++ P ++ [Event.AddRef rc, Event.AddRef ac])).session.outputBufferFrames
          = cs.outputBufferFrames := by rw [deliver_frames]
      rw [hobf] at hq ⊢
      obtain ⟨_, D, hD, d1, d2⟩ := deliver_throttle fuel p b rc ac cs
        (log ++ P ++ [Event.AddRef rc, Event.AddRef ac]) hC hq
      have hnew : newEvents log (deliver fuel p b rc ac cs
          (log ++ P ++ [Event.AddRef rc, Event.AddRef ac])).log
          = [] ++ (P ++ [Event.AddRef rc, Event.AddRef ac]) ++ D ++ [] := by
        rw [hD]
        simp [newEvents]
      have hP2 : ∀ x ∈ P ++ [Event.AddRef rc, Event.AddRef ac],
          x.kind ≠ Kind.write ∧ x.kind ≠ Kind.poll ∧ x.kind ≠ Kind.load := by
        intro x hx
        simp only [List.mem_append, List.mem_cons, List.mem_singleton,
          List.not_mem_nil, or_false] at hx
        rcases hx with hx | rfl | rfl
        · have := hP x hx
          simp only [List.mem_cons, List.mem_singleton, List.not_mem_nil, or_false] at this
          rcases this with h | h | h | h | h | h <;> simp [h]
        · simp [Event.kind]
        · simp [Event.kind]
      have hlp : lastPoll (P ++ [Event.AddRef rc, Event.AddRef ac]) = none :=
        lastPoll_none fun x hx => (hP2 x hx).2.1
      have hll : lastLoad (P ++ [Event.AddRef rc, Event.AddRef ac]) = none :=
        lastLoad_none fun x hx => (hP2 x hx).2.2
      constructor
      · intro pre e post h he
        rw [hnew] at h
        obtain ⟨m, n, h1, h2, h3⟩ := split_middle (A := P ++ [Event.AddRef rc, Event.AddRef ac])
          (W := D) (F := []) (by simpa using h)
          (fun x hx => by rw [he]; exact (hP2 x hx).1) (by simp)
        obtain ⟨g1, q, g2, g3, g4⟩ := d1 m e (n ++ []) (by simpa using h1) he
        subst h2
        refine ⟨by rw [lastLoad_append, g1]; rfl, q, by rw [lastPoll_append, g2]; rfl, g3, g4⟩
      · intro pre a q post h hlt
        rw [hnew] at h
        obtain ⟨m, n, h1, h2, h3⟩ := split_middle (A := P ++ [Event.AddRef rc, Event.AddRef ac])
          (W := D) (F := []) (by simpa using h)
          (fun x hx => by simpa [Event.kind] using (hP2 x hx).2.1) (by simp)
        have := d2 m a q n h1 hlt
        simpa [h3] using this
  refine ⟨key.1, key.2, ?_⟩
  intro hlt e he hk
  obtain ⟨pre, post, h⟩ := List.append_of_mem he
  obtain ⟨_, q, _, h1, h2⟩ := key.1 pre e post h hk
  omega

/-- An instance of `Play_throttle`: on `draining` the first poll leaves 100 frames
of headroom for 256 frames, the run sleeps, polls again and then writes. -/
theorem Play_throttle_witness :
    new.outputBufferFrames < 2 ^ 32 ∧
    (Play 2 draining stereo new []).session.outputBufferFrames = 1000 ∧
    (Play 2 draining stereo new []).outcome = Outcome.returned true ∧
    lastLoad ((newEvents [] (Play 2 draining stereo new []).log).take 25)
      = some StatePlaying ∧
    ∃ q, lastPoll ((newEvents [] (Play 2 draining stereo new []).log).take 25) = some q ∧
      q ≤ (Play 2 draining stereo new []).session.outputBufferFrames ∧
      framesToWrite stereo ≤ (Play 2 draining stereo new []).session.outputBufferFrames - q :=
  have hC : (Play 2 draining stereo new []).session.outputBufferFrames = 1000 := by decide
  have hq : ∀ t, draining.padding t ≤ (Play 2 draining stereo new []).session.outputBufferFrames := by
    intro t
    rw [hC]
    show (if t < 20 then 900 else 0) ≤ 1000
    split <;> omega
  have h := (Play_throttle 2 draining stereo new [] (by decide) hq).1
    ((newEvents [] (Play 2 draining stereo new []).log).take 25)
    (Event.GetBuffer 107 256 true)
    ((newEvents [] (Play 2 draining stereo new []).log).drop 26) rfl (by decide)
  ⟨by decide, hC, by decide, h.1, h.2⟩

theorem Resume_session (p : Platform) (s : Session) (log : List Event) :
    (Resume p s log).1 = { s with state := StatePlaying } := by
  unfold Resume
  simp only
  split <;> rfl

theorem Resume_extends (p : Platform) (s : Session) (log : List Event) :
    Extends [Kind.start] log (Resume p s log).2 := by
  unfold Resume
  simp only
  split
  · exact Extends.append _ _ (by simp [Event.kind])
  · exact Extends.refl _ _

theorem Pause_session (s : Session) (log : List Event) :
    (Pause s log).1 = { s with state := StatePaused } := by
  unfold Pause
  simp only
  split <;> rfl

theorem Pause_extends (s : Session) (log : List Event) :
    Extends [Kind.halt] log (Pause s log).2 := by
  unfold Pause
  simp only
  split
  · exact Extends.append _ _ (by simp [Event.kind])
  · exact Extends.refl _ _

theorem Stop_extends (p : Platform) (s : Session) (log : List Event) :
    Extends [Kind.halt, Kind.start] log (Stop p s log).2 := by
  unfold Stop
  simp only
  split
  · exact Extends.append _ _ (by simp [Event.kind])
  · exact Extends.refl _ _

/-- The session a returned `Play` leaves: the one it found (Paused), an empty
one (after `Reset`), or the configured one with another transport state. -/
theorem Play_session (fuel : Nat) (p : Platform) (b : Buffer) (s : Session) (log : List Event)
    (v : Bool) (h : (Play fuel p b s log).outcome = Outcome.returned v) :
    ((Play fuel p b s log).session = s ∧ (Play fuel p b s log).log = log) ∨
    ((Play fuel p b s log).session.audioClient = none ∧
      (Play fuel p b s log).session.renderClient = none) ∨
    ((Configure p b s log).outcome = Outcome.returned true ∧
      (∃ rc, (Configure p b s log).session.renderClient = some rc) ∧
      (Play fuel p b s log).session = { (Configure p b s log).session with
        state := (Play fuel p b s log).session.state } ∧
      Extends [Kind.addref, Kind.poll, Kind.sleep, Kind.load, Kind.write, Kind.release,
        Kind.notify] (Configure p b s log).log (Play fuel p b s log).log) := by
  unfold Play at h ⊢
  by_cases hp : s.state = StatePaused
  · left
    simp [hp]
  · simp only [hp, if_false] at h ⊢
    generalize Configure p b s log = c at *
    rcases c with ⟨o, cs, cl⟩
    cases o with
    | returned w =>
      cases w with
      | false =>
        right; left
        exact ⟨rfl, rfl⟩
      | true =>
        simp only at h ⊢
        cases hr : cs.renderClient with
        | none => simp [hr] at h
        | some rc =>
          cases ha : cs.audioClient with
          | none => simp [hr, ha] at h
          | some ac =>
            right; right
            simp only [hr, ha]
            refine ⟨trivial, ⟨rc, rfl⟩, ?_, ?_⟩
            · simpa only [hr, ha] using deliver_frames fuel p b rc ac cs
                (cl ++ [Event.AddRef rc, Event.AddRef ac])
            exact Extends.trans (Extends.append _ _ (by simp [Event.kind]))
              (Extends.mono (deliver_extends fuel p b rc ac cs _) (by simp))
    | crashed => simp at h
    | pending => simp at h

/-- The invariant of the session: without a Streaming Client there is no Render
Sink; with one there is a Render Sink and the stored format is the one of the
client's most recent successful `Initialize`. -/
theorem step_invariant (p : Platform) (op : Op) (s : Session) (log : List Event)
    (s2 : Session) (log2 : List Event) (h : step p op s log = some (s2, log2))
    (h1 : s.audioClient = none → s.renderClient = none)
    (h2 : ∀ ac, s.audioClient = some ac →
      s.renderClient ≠ none ∧ lastInit log = some (ac, s.waveFormat)) :
    (s2.audioClient = none → s2.renderClient = none) ∧
    ∀ ac, s2.audioClient = some ac →
      s2.renderClient ≠ none ∧ lastInit log2 = some (ac, s2.waveFormat) := by
  -- an operation that keeps handles and format and appends no `Initialize`
  have keep : ∀ (K : List Kind), Kind.init ∉ K → Extends K log log2 →
      s2.audioClient = s.audioClient → s2.renderClient = s.renderClient →
      s2.waveFormat = s.waveFormat →
      (s2.audioClient = none → s2.renderClient = none) ∧
      ∀ ac, s2.audioClient = some ac →
        s2.renderClient ≠ none ∧ lastInit log2 = some (ac, s2.waveFormat) := by
    intro K hK hx e1 e2 e3
    rw [e1, e2, e3, lastInit_extends hx hK]
    exact ⟨h1, h2⟩
  cases op with
  | Resume =>
    simp only [step, Option.some.injEq] at h
    obtain ⟨rfl, rfl⟩ : (Resume p s log).1 = s2 ∧ (Resume p s log).2 = log2 := by
      rw [h]; exact ⟨rfl, rfl⟩
    have hs := Resume_session p s log
    exact keep _ (by simp) (Resume_extends p s log) (by rw [hs]) (by rw [hs]) (by rw [hs])
  | Pause =>
    simp only [step, Option.some.injEq] at h
    obtain ⟨rfl, rfl⟩ : (Pause s log).1 = s2 ∧ (Pause s log).2 = log2 := by
      rw [h]; exact ⟨rfl, rfl⟩
    have hs := Pause_session s log
    exact keep _ (by simp) (Pause_extends s log) (by rw [hs]) (by rw [hs]) (by rw [hs])
  | Stop =>
    simp only [step, Option.some.injEq] at h
    obtain ⟨rfl, rfl⟩ : (Stop p s log).1 = s2 ∧ (Stop p s log).2 = log2 := by
      rw [h]; exact ⟨rfl, rfl⟩
    have hs := Stop_session p s log
    exact keep _ (by simp) (Stop_extends p s log) (by rw [hs]) (by rw [hs]) (by rw [hs])
  | SetVolume v =>
    simp only [step, Option.some.injEq] at h
    obtain ⟨rfl, rfl⟩ : (SetVolume p v s log).1 = s2 ∧ (SetVolume p v s log).2 = log2 := by
      rw [h]; exact ⟨rfl, rfl⟩
    have hs := SetVolume_session p v s log
    exact keep _ (by simp) (SetVolume_extends p v s log) (by rw [hs]) (by rw [hs])
      (by rw [hs])
  | Reset =>
    simp only [step, Option.some.injEq] at h
    obtain ⟨rfl, rfl⟩ : (Reset s log).1 = s2 ∧ (Reset s log).2 = log2 := by
      rw [h]; exact ⟨rfl, rfl⟩
    exact ⟨fun _ => rfl, fun ac hac => by simp [Reset] at hac⟩
  | Play fuel b =>
    simp only [step] at h
    cases ho : (Play fuel p b s log).outcome with
    | returned v =>
      rw [ho] at h
      simp only [Option.some.injEq, Prod.mk.injEq] at h
      obtain ⟨rfl, rfl⟩ := h
      rcases Play_session fuel p b s log v ho with ⟨e1, e2⟩ | ⟨e1, e2⟩ | ⟨hc, ⟨rc, hrc⟩, e1, e2⟩
      · rw [e1, e2]
        exact ⟨h1, h2⟩
      · exact ⟨fun _ => e2, fun ac hac => by rw [e1] at hac; simp at hac⟩
      · obtain ⟨_, _, _, c4⟩ := Configure_spec p b s log
        have hA : (Play fuel p b s log).session.audioClient
            = (Configure p b s log).session.audioClient := by rw [e1]
        have hR : (Play fuel p b s log).session.renderClient
            = (Configure p b s log).session.renderClient := by rw [e1]
        have hF : (Play fuel p b s log).session.waveFormat
            = (Configure p b s log).session.waveFormat := by rw [e1]
        rw [hA, hR, hF, lastInit_extends e2 (by simp)]
        rcases c4 hc with ⟨_, g1, g2⟩ | ⟨g1, g2, _⟩ | ⟨ac, g1, g2, _, _, _, g3, _, _, g4⟩
        · rw [g1, g2]
          exact ⟨h1, h2⟩
        · rw [g2, h1 g1] at hrc
          simp at hrc
        · rw [g1, g3, g4]
          refine ⟨fun hn => by simp at hn, ?_⟩
          intro ac2 hac2
          simp only [Option.some.injEq] at hac2
          subst hac2
          exact ⟨g2, rfl⟩
    | crashed => rw [ho] at h; simp at h
    | pending => rw [ho] at h; simp at h

theorem run_invariant_from (p : Platform) (ops : List Op) :
    ∀ (s : Session) (log : List Event) (s2 : Session) (log2 : List Event),
      run p ops s log = some (s2, log2) →
      (s.audioClient = none → s.renderClient = none) →
      (∀ ac, s.audioClient = some ac →
        s.renderClient ≠ none ∧ lastInit log = some (ac, s.waveFormat)) →
      (s2.audioClient = none → s2.renderClient = none) ∧
      ∀ ac, s2.audioClient = some ac →
        s2.renderClient ≠ none ∧ lastInit log2 = some (ac, s2.waveFormat) := by
  induction ops with
  | nil =>
    intro s log s2 log2 h h1 h2
    simp only [run, Option.some.injEq, Prod.mk.injEq] at h
    obtain ⟨rfl, rfl⟩ := h
    exact ⟨h1, h2⟩
  | cons op ops ih =>
    intro s log s2 log2 h h1 h2
    simp only [run] at h
    cases hst : step p op s log with
    | none => rw [hst] at h; simp at h
    | some r =>
      rw [hst] at h
      obtain ⟨k1, k2⟩ := step_invariant p op s log r.1 r.2 hst h1 h2
      exact ih r.1 r.2 s2 log2 h k1 k2

/-- C5, as amended: in every state reached from the new session by calls of
`Resume`, `Pause`, `Stop`, `SetVolume`, `Play` and `Reset` that returned, on any
platform, if the Streaming Client is non-null then the Render Sink is non-null
and the stored format is the one of the most recent successful `Initialize` of
that client; and without a Streaming Client there is no Render Sink. -/
theorem run_invariant (p : Platform) (ops : List Op) (s : Session) (log : List Event)
    (h : run p ops new [] = some (s, log)) :
    (s.audioClient = none → s.renderClient = none) ∧
    ∀ ac, s.audioClient = some ac →
      s.renderClient ≠ none ∧ lastInit log = some (ac, s.waveFormat) :=
  run_invariant_from p ops new [] s log h (fun _ => rfl) (fun ac hac => by simp [new] at hac)

/-- An instance of `run_invariant`: a first `Play` followed by `Stop`. -/
theorem run_invariant_witness :
    run okPlatform [Op.Play 1 stereo, Op.Stop] new [] =
      some ((Stop okPlatform firstPlay.session firstPlay.log).1,
        (Stop okPlatform firstPlay.session firstPlay.log).2) ∧
    (Stop okPlatform firstPlay.session firstPlay.log).1.audioClient = some 103 ∧
    (Stop okPlatform firstPlay.session firstPlay.log).1.renderClient ≠ none ∧
    lastInit (Stop okPlatform firstPlay.session firstPlay.log).2 =
      some (103, (Stop okPlatform firstPlay.session firstPlay.log).1.waveFormat) :=
  have h := (run_invariant okPlatform [Op.Play 1 stereo, Op.Stop]
    (Stop okPlatform firstPlay.session firstPlay.log).1
    (Stop okPlatform firstPlay.session firstPlay.log).2 rfl).2 103 (by decide)
  ⟨rfl, by decide, h.1, h.2⟩

/-- C5, the claim as stated fails: `Resume()` on the new session leaves the
transport state Playing while the Streaming Client and the Render Sink are
null. -/
theorem Resume_without_device :
    run okPlatform [Op.Resume] new [] =
      some ((Resume okPlatform new []).1, (Resume okPlatform new []).2) ∧
    (Resume okPlatform new []).1.state ≠ StateStopped ∧
    (Resume okPlatform new []).1.audioClient = none ∧
    (Resume okPlatform new []).1.renderClient = none :=
  ⟨rfl, by decide, by decide, by decide⟩

/-- C6, the code at a failing input: on a session configured with a device
buffer of 24000 frames at 48 kHz the latency is half a second and the state is
Playing; `Drain` rounds the latency to one whole second before it multiplies,
so its budget is 1000 ms, not 500 ms, and it sleeps twenty times 50 ms, which is
more than the 550 ms the claim allows. -/
theorem Drain_rounds_latency :
    Latency halfSecondPlay.session = 1 / 2 ∧
    halfSecondPlay.session.state = StatePlaying ∧
    sleepMs halfSecondPlay.session = 1000 ∧
    (Drain 30 halfSecond halfSecondPlay.session halfSecondPlay.log).map
      (fun r => sleeps (newEvents halfSecondPlay.log r.2)) = some 20 ∧
    ¬ ((50 * 20 : ℚ) ≤ 1000 * Latency halfSecondPlay.session + 50) := by
  have hL : Latency halfSecondPlay.session = 1 / 2 := by
    have : Latency halfSecondPlay.session
        = ((24000 % 2 ^ 32 : Nat) : ℚ) / ((48000 : Int) : ℚ) := rfl
    rw [this]
    norm_num
  have hms : sleepMs halfSecondPlay.session = 1000 := by
    unfold sleepMs
    rw [hL]
    norm_num [round]
  refine ⟨hL, by decide, hms, ?_, ?_⟩
  · unfold Drain
    rw [hms]
    decide
  · rw [hL]
    norm_num

/-- C10, the code at a failing input: for a stereo buffer of three samples
`Play` asks `GetBuffer` for one frame, a region of 8 bytes, and copies 12 bytes
into it. -/
theorem Play_copies_past_region :
    (Play 1 okPlatform ragged new []).outcome = Outcome.returned true ∧
    framesToWrite ragged = 1 ∧
    Event.GetBuffer 107 1 true ∈ newEvents [] (Play 1 okPlatform ragged new []).log ∧
    Event.Memcpy 12 ∈ newEvents [] (Play 1 okPlatform ragged new []).log ∧
    regionBytes (Play 1 okPlatform ragged new []).session.waveFormat (framesToWrite ragged)
      = 8 ∧
    ¬ (4 * toUINT32 ragged.Samples ≤
      regionBytes (Play 1 okPlatform ragged new []).session.waveFormat
        (framesToWrite ragged)) ∧
    ¬ (4 * toUINT32 ragged.Samples ≤
      4 * toUINT32 ragged.Channels * (toUINT32 ragged.Samples / toUINT32 ragged.Channels)) := by
  decide

theorem hundredNanos_wraps : hundredNanos long14 = -2054967296 := by
  decide

/-- C8, as amended: on a session that holds a Streaming Client, for a buffer
whose channel count or sample rate differs from the stored format and for
which the computation of the duration does not trap, `Configure` releases
nothing and acquires no enumerator, endpoint or client: it keeps the
enumerator, the device and the Streaming Client it holds, probes and
initialises that same client with the format of the buffer, which becomes the
stored format, and, when every step succeeds, replaces the Render Sink, the two
volume controls and the clock by the pointers the client hands out. -/
theorem Configure_format_change (p : Platform) (b : Buffer) (s : Session) (log : List Event)
    (ac : Nat) (h : s.audioClient = some ac) (hm : formatMatches s.waveFormat b = false)
    (ht : durationTraps b = false) :
    (Configure p b s log).outcome ≠ Outcome.crashed ∧
    (∃ rest, (Configure p b s log).log = log ++
        [Event.IsFormatSupported ac (formatOf b) (p.hresult log.length),
         Event.Initialize ac
           (if p.hresult log.length then 0 else AUDCLNT_STREAMFLAGS_AUTOCONVERTPCM)
           (hundredNanos b) (formatOf b) (p.hresult (log.length + 1))] ++ rest ∧
        ∀ e ∈ rest, e.kind ∈ [Kind.service, Kind.start, Kind.volume]) ∧
    (∀ e ∈ newEvents log (Configure p b s log).log,
      e.kind ≠ Kind.release ∧ e.kind ≠ Kind.halt ∧ e.kind ≠ Kind.acquire) ∧
    (Configure p b s log).session.enumerator = s.enumerator ∧
    (Configure p b s log).session.device = s.device ∧
    (Configure p b s log).session.audioClient = some ac ∧
    (Configure p b s log).session.waveFormat = formatOf b ∧
    ((Configure p b s log).outcome = Outcome.returned true →
      (Configure p b s log).session.renderClient = p.pointer (log.length + 3) ∧
      (Configure p b s log).session.simpleAudioVolume = p.pointer (log.length + 4) ∧
      (Configure p b s log).session.audioStreamVolume = p.pointer (log.length + 5) ∧
      (Configure p b s log).session.audioClock = p.pointer (log.length + 6)) := by
  rw [Configure_slow p b s log ac h hm]
  obtain ⟨r1, _, _, r4, r5, r6, r7, r8, r9, _⟩ := reconfigure_spec p b s log ac h
  obtain ⟨q1, q2⟩ := r5 ht
  refine ⟨q1, q2, ?_, r7, r8, by rw [r9, h], r6, ?_⟩
  · intro e he
    have := r1.newEvents.2 e he
    simp only [List.mem_cons, List.mem_singleton, List.not_mem_nil, or_false] at this
    rcases this with h' | h' | h' | h' | h' <;> simp [h']
  · intro ht
    obtain ⟨_, t1, t2, t3, t4, _⟩ := r4 ht
    exact ⟨t1, t2, t3, t4⟩

/-- An instance of `Configure_format_change`: a mono buffer after a stereo one;
the duration handed to `Initialize` is 1600000 units of 100 ns. -/
theorem Configure_format_change_witness :
    firstPlay.session.audioClient = some 103 ∧
    formatMatches firstPlay.session.waveFormat mono = false ∧
    durationTraps mono = false ∧
    hundredNanos mono = 1600000 ∧
    (Configure okPlatform mono firstPlay.session firstPlay.log).session.audioClient
      = some 103 ∧
    (Configure okPlatform mono firstPlay.session firstPlay.log).session.waveFormat
      = formatOf mono :=
  have h := Configure_format_change okPlatform mono firstPlay.session firstPlay.log 103
    (by decide) (by decide) (by decide)
  ⟨by decide, by decide, by decide, by decide, h.2.2.2.2.2.1, h.2.2.2.2.2.2.1⟩

/-- C8, the claim as stated fails: after the first `Play` of a stereo buffer on
`okPlatform` the session holds the client 103; `Configure` for a mono buffer
releases nothing, keeps enumerator, device and client, and calls `Initialize`
on the client 103 it held before the format change. -/
theorem Configure_reuses_client :
    firstPlay.session.enumerator = some 101 ∧
    firstPlay.session.device = some 102 ∧
    firstPlay.session.audioClient = some 103 ∧
    formatMatches firstPlay.session.waveFormat mono = false ∧
    (Configure okPlatform mono firstPlay.session firstPlay.log).outcome
      = Outcome.returned true ∧
    Event.Initialize 103 0 1600000 (formatOf mono) true ∈
      newEvents firstPlay.log
        (Configure okPlatform mono firstPlay.session firstPlay.log).log ∧
    (newEvents firstPlay.log
        (Configure okPlatform mono firstPlay.session firstPlay.log).log).all
      (fun e => decide (e.kind ≠ Kind.release ∧ e.kind ≠ Kind.acquire)) = true ∧
    (Configure okPlatform mono firstPlay.session firstPlay.log).session.enumerator
      = some 101 ∧
    (Configure okPlatform mono firstPlay.session firstPlay.log).session.device
      = some 102 ∧
    (Configure okPlatform mono firstPlay.session firstPlay.log).session.audioClient
      = some 103 := by
  decide

/-- C7, as amended: when the transport state is not Paused and `Configure`
returns false, `Play` returns false, does not call the owner, appends to what
`Configure` did exactly the teardown of `Reset` (stop and release of the
client, release of every other handle held), and leaves every handle null and
the stored format zeroed; the transport state is the one the session had
before the call. -/
theorem Play_configure_failure (fuel : Nat) (p : Platform) (b : Buffer) (s : Session)
    (log : List Event) (hs : s.state ≠ StatePaused)
    (hc : (Configure p b s log).outcome = Outcome.returned false) :
    (Play fuel p b s log).outcome = Outcome.returned false ∧
    (Play fuel p b s log).log = log ++ newEvents log (Play fuel p b s log).log ∧
    notifications (newEvents log (Play fuel p b s log).log) = 0 ∧
    (Play fuel p b s log).log = (Configure p b s log).log ++
      (stopReleaseOf (Configure p b s log).session.audioClient ++
        releaseOf (Configure p b s log).session.enumerator ++
        releaseOf (Configure p b s log).session.device ++
        releaseOf (Configure p b s log).session.renderClient ++
        releaseOf (Configure p b s log).session.simpleAudioVolume ++
        releaseOf (Configure p b s log).session.audioStreamVolume ++
        releaseOf (Configure p b s log).session.audioClock) ∧
    (Play fuel p b s log).session.enumerator = none ∧
    (Play fuel p b s log).session.device = none ∧
    (Play fuel p b s log).session.audioClient = none ∧
    (Play fuel p b s log).session.renderClient = none ∧
    (Play fuel p b s log).session.simpleAudioVolume = none ∧
    (Play fuel p b s log).session.audioStreamVolume = none ∧
    (Play fuel p b s log).session.audioClock = none ∧
    (Play fuel p b s log).session.waveFormat = zeroFormat ∧
    (Play fuel p b s log).session.state = s.state := by
  obtain ⟨c1, _, c3, _⟩ := Configure_spec p b s log
  have e : Play fuel p b s log = ⟨Outcome.returned false,
      (Reset (Configure p b s log).session (Configure p b s log).log).1,
      (Reset (Configure p b s log).session (Configure p b s log).log).2⟩ := by
    simp [Play, hs, hc]
  have hx : Extends [Kind.acquire, Kind.probe, Kind.init, Kind.service, Kind.start,
      Kind.volume, Kind.halt, Kind.release] log (Play fuel p b s log).log := by
    rw [e]
    exact Extends.trans (Extends.mono c1 (by simp))
      (Extends.mono (Reset_extends _ _) (by simp))
  refine ⟨by rw [e], hx.newEvents.1, notifications_extends hx (by simp), ?_, ?_⟩
  · rw [e]
    simp [Reset]
  · rw [e]
    exact ⟨rfl, rfl, rfl, rfl, rfl, rfl, rfl, rfl, c3 hc⟩

/-- An instance of `Play_configure_failure` with a late failure: on `startFails`
the first `Configure` acquires the seven handles and fails at `Start`; `Play`
then stops and releases the client and releases the six other handles. -/
theorem Play_configure_failure_witness :
    new.state ≠ StatePaused ∧
    (Configure startFails stereo new []).outcome = Outcome.returned false ∧
    (Configure startFails stereo new []).session.audioClient = some 103 ∧
    (Configure startFails stereo new []).session.renderClient = some 107 ∧
    (Configure startFails stereo new []).session.waveFormat = formatOf stereo ∧
    (Play 1 startFails stereo new []).outcome = Outcome.returned false ∧
    newEvents (Configure startFails stereo new []).log (Play 1 startFails stereo new []).log =
      [Event.Stop 103, Event.Release 103, Event.Release 101, Event.Release 102,
       Event.Release 107, Event.Release 108, Event.Release 109, Event.Release 110] ∧
    (Play 1 startFails stereo new []).session.audioClient = none ∧
    (Play 1 startFails stereo new []).session.renderClient = none ∧
    (Play 1 startFails stereo new []).session.waveFormat = zeroFormat ∧
    (Play 1 startFails stereo new []).session.state = StateStopped :=
  have h := Play_configure_failure 1 startFails stereo new [] (by decide) (by decide)
  ⟨by decide, by decide, by decide, by decide, by decide, h.1, by decide,
    h.2.2.2.2.2.2.1, h.2.2.2.2.2.2.2.1, h.2.2.2.2.2.2.2.2.2.2.2.1,
    h.2.2.2.2.2.2.2.2.2.2.2.2⟩

/-- C7, the claim as stated fails: after a first `Play` of a stereo buffer on
`reinitFails` the session is configured and Playing; for a mono buffer
`Configure` fails at `Initialize`, and `Play` returns false, releases every
handle and zeroes the format, but leaves the transport state Playing, not
Stopped. -/
theorem Play_configure_failure_not_stopped :
    firstPlayReinit.outcome = Outcome.returned true ∧
    firstPlayReinit.session.state = StatePlaying ∧
    firstPlayReinit.session.audioClient = some 103 ∧
    firstPlayReinit.session.renderClient = some 107 ∧
    (Configure reinitFails mono firstPlayReinit.session firstPlayReinit.log).outcome
      = Outcome.returned false ∧
    (Play 1 reinitFails mono firstPlayReinit.session firstPlayReinit.log).outcome
      = Outcome.returned false ∧
    (Play 1 reinitFails mono firstPlayReinit.session firstPlayReinit.log).session.audioClient
      = none ∧
    (Play 1 reinitFails mono firstPlayReinit.session firstPlayReinit.log).session.renderClient
      = none ∧
    (Play 1 reinitFails mono firstPlayReinit.session firstPlayReinit.log).session.waveFormat
      = zeroFormat ∧
    Event.Release 103 ∈ newEvents firstPlayReinit.log
      (Play 1 reinitFails mono firstPlayReinit.session firstPlayReinit.log).log ∧
    (Play 1 reinitFails mono firstPlayReinit.session firstPlayReinit.log).session.state
      = StatePlaying ∧
    (Play 1 reinitFails mono firstPlayReinit.session firstPlayReinit.log).session.state
      ≠ StateStopped := by
  decide

theorem doublings_lt (n : Nat) (a : ℚ) (h : a < 1) :
    doublings (n + 1) a = doublings n (2 * a) + 1 := by
  simp [doublings, not_le.mpr h]

theorem doublings_ge (n : Nat) (a : ℚ) (h : 1 ≤ a) : doublings (n + 1) a = 0 := by
  simp [doublings, h]

theorem exponent_tenth : exponent tenth = -4 := by
  have h1 : ¬ (1 ≤ tenth) := by norm_num [tenth]
  unfold exponent
  rw [if_neg h1]
  rw [doublings_lt 125 _ (by norm_num [tenth]), doublings_lt 124 _ (by norm_num [tenth]),
    doublings_lt 123 _ (by norm_num [tenth]), doublings_lt 122 _ (by norm_num [tenth]),
    doublings_ge 121 _ (by norm_num [tenth])]
  norm_num

/-- The `float` nearest to the `double` nearest to one tenth. -/
theorem toFloat_tenth : toFloat tenth = some (13421773 / 2 ^ 27) := by
  have h0 : |tenth| = tenth := abs_of_nonneg (by norm_num [tenth])
  have hf : Int.floor (tenth / 2 ^ (-27 : Int)) = 13421772 := by
    rw [Int.floor_eq_iff]
    norm_num [tenth]
  have hr : roundHalfEven (tenth / 2 ^ (-27 : Int)) = 13421773 := by
    unfold roundHalfEven
    rw [hf]
    norm_num [tenth]
  have he : ((-4 : Int) - 23) = -27 := by norm_num
  simp only [toFloat, h0, exponent_tenth, he, hr]
  have hpos : (0 : ℚ) ≤ tenth := by norm_num [tenth]
  rw [if_pos hpos, if_pos (by norm_num)]
  norm_num

/-- One half is a `float`: the narrowing leaves it as it is. -/
theorem toFloat_half : toFloat (1 / 2) = some (1 / 2) := by
  have h0 : |(1 / 2 : ℚ)| = 1 / 2 := abs_of_nonneg (by norm_num)
  have hx : exponent (1 / 2) = -1 := by
    unfold exponent
    rw [if_neg (by norm_num), doublings_lt 125 _ (by norm_num),
      doublings_ge 124 _ (by norm_num)]
    norm_num
  have hf : Int.floor ((1 / 2 : ℚ) / 2 ^ (-24 : Int)) = 8388608 := by
    rw [Int.floor_eq_iff]
    norm_num
  have hr : roundHalfEven ((1 / 2 : ℚ) / 2 ^ (-24 : Int)) = 8388608 := by
    unfold roundHalfEven
    rw [hf]
    norm_num
  have he : ((-1 : Int) - 23) = -24 := by norm_num
  simp only [toFloat, h0, hx, he, hr]
  rw [if_pos (by norm_num), if_pos (by norm_num)]
  norm_num

theorem roundHalfEven_near (x : ℚ) : |(roundHalfEven x : ℚ) - x| ≤ 1 / 2 := by
  have h1 := Int.floor_le x
  have h2 := Int.lt_floor_add_one x
  unfold roundHalfEven
  split
  · rw [abs_le]; constructor <;> linarith
  · split
    · push_cast; rw [abs_le]; constructor <;> linarith
    · rename_i h3 h4
      have h5 : x - (Int.floor x : ℚ) = 1 / 2 := le_antisymm (not_lt.mp h4) (not_lt.mp h3)
      split
      · rw [abs_le]; constructor <;> linarith
      · push_cast; rw [abs_le]; constructor <;> linarith

theorem doublings_le (n : Nat) : ∀ a : ℚ, doublings n a ≤ n := by
  induction n with
  | zero => intro a; simp [doublings]
  | succ n ih =>
    intro a
    simp only [doublings]
    split
    · omega
    · have := ih (2 * a); omega

theorem halvings_of_lt (n : Nat) (a : ℚ) (h : a < 2) : halvings n a = 0 := by
  cases n with
  | zero => rfl
  | succ n => simp [halvings, h]

/-- For a volume between 0 and 1 the narrowing to `float` gives a finite value
that differs from it by at most `2 ^ -24`. -/
theorem toFloat_near (v : ℚ) (h0 : 0 ≤ v) (h1 : v ≤ 1) :
    ∃ r, toFloat v = some r ∧ |r - v| ≤ 1 / 2 ^ 24 := by
  have ha : |v| = v := abs_of_nonneg h0
  have hexp : exponent v ≤ 0 := by
    unfold exponent
    split
    · rw [halvings_of_lt 128 v (by linarith)]
      simp
    · simp
  have hulp : (0 : ℚ) < 2 ^ (exponent v - 23) := zpow_pos (by norm_num) _
  have hulp2 : (2 : ℚ) ^ (exponent v - 23) ≤ 2 ^ (-23 : Int) :=
    zpow_le_zpow_right₀ (by norm_num) (by omega)
  have hnear := roundHalfEven_near (v / 2 ^ (exponent v - 23))
  have hd : |(roundHalfEven (v / 2 ^ (exponent v - 23)) : ℚ) * 2 ^ (exponent v - 23) - v|
      ≤ 1 / 2 ^ 24 := by
    have e1 : (roundHalfEven (v / 2 ^ (exponent v - 23)) : ℚ) * 2 ^ (exponent v - 23) - v
        = ((roundHalfEven (v / 2 ^ (exponent v - 23)) : ℚ) - v / 2 ^ (exponent v - 23))
          * 2 ^ (exponent v - 23) := by
      field_simp
    rw [e1, abs_mul, abs_of_pos hulp]
    calc |(roundHalfEven (v / 2 ^ (exponent v - 23)) : ℚ) - v / 2 ^ (exponent v - 23)|
          * 2 ^ (exponent v - 23)
        ≤ 1 / 2 * 2 ^ (-23 : Int) := mul_le_mul hnear hulp2 hulp.le (by norm_num)
      _ = 1 / 2 ^ 24 := by norm_num
  refine ⟨(roundHalfEven (v / 2 ^ (exponent v - 23)) : ℚ) * 2 ^ (exponent v - 23), ?_, hd⟩
  simp only [toFloat, ha]
  rw [if_pos, if_pos h0]
  have := (abs_le.mp hd).2
  have h2 : (1 : ℚ) / 2 ^ 24 + 1 < 2 ^ 128 := by norm_num
  linarith

/-- What `SetVolume` appends when the two volume controls are present. -/
theorem SetVolume_log (p : Platform) (v : ℚ) (s : Session) (log : List Event) (m sv : Nat)
    (hm : s.simpleAudioVolume = some m) (hsv : s.audioStreamVolume = some sv) :
    (SetVolume p v s log).2 = log ++
      ([Event.SetMasterVolume m 1, Event.SetMute m false,
        Event.GetChannelCount sv (p.channelCount (log.length + 2) % 2 ^ 32)] ++
        channelVolumes sv v (p.channelCount (log.length + 2) % 2 ^ 32)) := by
  simp [SetVolume, hm, hsv]

/-- C4, as amended: after `SetVolume(v)`, for every `v` and so for every `v` with
`0 ≤ v ≤ 1`, `GetVolume()` returns exactly `v`, with or without a configured
device; and when the two volume controls are present, `SetVolume(v)` sets the
master volume to 1, clears mute, asks the device for its channel count and sets
the stream volume of every channel below that count to `(float) v`, the value
of `v` narrowed to single precision, which for `0 ≤ v ≤ 1` is finite and within
`2 ^ -24` of `v`. -/
theorem SetVolume_then_GetVolume (p : Platform) (v : ℚ) (s : Session) (log : List Event) :
    GetVolume (SetVolume p v s log).1 = v ∧
    (∀ m sv, s.simpleAudioVolume = some m → s.audioStreamVolume = some sv →
      (SetVolume p v s log).2 = log ++
        ([Event.SetMasterVolume m 1, Event.SetMute m false,
          Event.GetChannelCount sv (p.channelCount (log.length + 2) % 2 ^ 32)] ++
          (List.range (p.channelCount (log.length + 2) % 2 ^ 32)).map
            (fun i => Event.SetChannelVolume sv i (toFloat v))) ∧
      ∀ i, i < p.channelCount (log.length + 2) % 2 ^ 32 →
        Event.SetChannelVolume sv i (toFloat v) ∈ newEvents log (SetVolume p v s log).2) ∧
    (0 ≤ v → v ≤ 1 → ∃ r, toFloat v = some r ∧ |r - v| ≤ 1 / 2 ^ 24) := by
  refine ⟨by rw [SetVolume_session]; rfl, ?_, toFloat_near v⟩
  intro m sv hm hsv
  have e := SetVolume_log p v s log m sv hm hsv
  refine ⟨e, ?_⟩
  intro i hi
  rw [e, newEvents_append]
  simp only [List.mem_append, channelVolumes, List.mem_map, List.mem_range]
  right
  exact ⟨i, hi, rfl⟩

/-- An instance of `SetVolume_then_GetVolume`: half volume on the session of the
first `Play`, whose stream has two channels; one half is a `float` and reaches
the device unchanged. -/
theorem SetVolume_then_GetVolume_witness :
    GetVolume (SetVolume okPlatform (1 / 2) firstPlay.session firstPlay.log).1 = 1 / 2 ∧
    Event.SetChannelVolume 109 1 (some (1 / 2)) ∈
      newEvents firstPlay.log (SetVolume okPlatform (1 / 2) firstPlay.session firstPlay.log).2 :=
  have h := SetVolume_then_GetVolume okPlatform (1 / 2) firstPlay.session firstPlay.log
  ⟨h.1, toFloat_half ▸ (h.2.1 108 109 (by decide) (by decide)).2 1 (by decide)⟩

/-- C4, the claim as stated fails: for `v` the `double` nearest to one tenth, on
the configured session of the first `Play`, `GetVolume()` returns `v` but each
channel's stream volume is set to the `float` 13421773 / 2 ^ 27, which is not
`v`; no `SetChannelVolume` call carries `v` itself. -/
theorem SetVolume_narrows :
    (0 : ℚ) ≤ tenth ∧ tenth ≤ 1 ∧
    firstPlay.session.simpleAudioVolume = some 108 ∧
    firstPlay.session.audioStreamVolume = some 109 ∧
    GetVolume (SetVolume okPlatform tenth firstPlay.session firstPlay.log).1 = tenth ∧
    newEvents firstPlay.log (SetVolume okPlatform tenth firstPlay.session firstPlay.log).2 =
      [Event.SetMasterVolume 108 1, Event.SetMute 108 false, Event.GetChannelCount 109 2,
       Event.SetChannelVolume 109 0 (some (13421773 / 2 ^ 27)),
       Event.SetChannelVolume 109 1 (some (13421773 / 2 ^ 27))] ∧
    (13421773 / 2 ^ 27 : ℚ) ≠ tenth ∧
    (∀ i, Event.SetChannelVolume 109 i (some tenth) ∉
      newEvents firstPlay.log (SetVolume okPlatform tenth firstPlay.session firstPlay.log).2) := by
  have e : newEvents firstPlay.log
      (SetVolume okPlatform tenth firstPlay.session firstPlay.log).2 =
      [Event.SetMasterVolume 108 1, Event.SetMute 108 false, Event.GetChannelCount 109 2,
       Event.SetChannelVolume 109 0 (some (13421773 / 2 ^ 27)),
       Event.SetChannelVolume 109 1 (some (13421773 / 2 ^ 27))] := by
    rw [SetVolume_log okPlatform tenth firstPlay.session firstPlay.log 108 109
      (by decide) (by decide), newEvents_append, ← toFloat_tenth]
    rfl
  have hne : (13421773 / 2 ^ 27 : ℚ) ≠ tenth := by norm_num [tenth]
  refine ⟨by norm_num [tenth], by norm_num [tenth], by decide, by decide,
    by rw [SetVolume_session]; rfl, e, hne, ?_⟩
  intro i hmem
  rw [e] at hmem
  simp only [List.mem_cons, List.mem_singleton, List.not_mem_nil, or_false,
    Event.SetChannelVolume.injEq, Option.some.injEq, false_or, reduceCtorEq] at hmem
  rcases hmem with ⟨_, _, h⟩ | ⟨_, _, h⟩ <;> exact hne h.symm

/-- A run that did not return `true`, appended no call of the owner and, as
events of the write, at most declined acquisitions (and then returned `false`)
meets what C2 asks of it. -/
theorem quiet_run (b : Buffer) {K : List Kind} {log log2 : List Event} {o : Outcome}
    (hx : Extends K log log2) (hn : Kind.notify ∉ K) (ho : o ≠ Outcome.returned true)
    (hw : ∀ e ∈ newEvents log log2, e.kind = Kind.write →
      o = Outcome.returned false ∧ ∃ sink n, e = Event.GetBuffer sink n false) :
    log2 = log ++ newEvents log log2 ∧
    notifications (newEvents log log2) = (if o = Outcome.returned true then 1 else 0) ∧
    (o = Outcome.returned true ↔ ∃ pre sink rc post, newEvents log log2 = pre ++
      [Event.GetBuffer sink (toUINT32 b.Samples / toUINT32 b.Channels) true,
       Event.Memcpy (4 * toUINT32 b.Samples),
       Event.ReleaseBuffer rc (toUINT32 b.Samples / toUINT32 b.Channels)] ++ post) ∧
    (o = Outcome.returned true → ∃ pre sink rc ac, newEvents log log2 = pre ++
      [Event.LoadState StatePlaying,
       Event.GetBuffer sink (toUINT32 b.Samples / toUINT32 b.Channels) true,
       Event.Memcpy (4 * toUINT32 b.Samples),
       Event.ReleaseBuffer rc (toUINT32 b.Samples / toUINT32 b.Channels),
       Event.Release rc, Event.Release ac, Event.OnBufferProcessed b]) ∧
    (∀ sink n, Event.GetBuffer sink n true ∈ newEvents log log2 →
      o = Outcome.returned true) ∧
    (∀ k, Event.Memcpy k ∈ newEvents log log2 → o = Outcome.returned true) ∧
    (∀ sink n, Event.ReleaseBuffer sink n ∈ newEvents log log2 →
      o = Outcome.returned true) ∧
    (∀ sink n, Event.GetBuffer sink n false ∈ newEvents log log2 →
      o = Outcome.returned false) := by
  refine ⟨hx.newEvents.1, ?_, ?_, fun h => absurd h ho, ?_, ?_, ?_, ?_⟩
  · rw [notifications_extends hx hn, if_neg ho]
  · constructor
    · intro h; exact absurd h ho
    · rintro ⟨pre, sink, rc, post, e⟩
      obtain ⟨_, s2, n2, h2⟩ := hw (Event.Memcpy (4 * toUINT32 b.Samples))
        (by rw [e]; simp) rfl
      simp at h2
  · intro sink n hm
    obtain ⟨_, s2, n2, h2⟩ := hw _ hm rfl
    simp at h2
  · intro k hm
    obtain ⟨_, s2, n2, h2⟩ := hw _ hm rfl
    simp at h2
  · intro sink n hm
    obtain ⟨_, s2, n2, h2⟩ := hw _ hm rfl
    simp at h2
  · intro sink n hm
    exact (hw _ hm rfl).1

/-- A run that appended no event of the write at all. -/
theorem no_write {K : List Kind} {log log2 : List Event} {o : Outcome}
    (hx : Extends K log log2) (hK : Kind.write ∉ K) :
    ∀ e ∈ newEvents log log2, e.kind = Kind.write →
      o = Outcome.returned false ∧ ∃ sink n, e = Event.GetBuffer sink n false := by
  intro e he hk
  have := hx.newEvents.2 e he
  rw [hk] at this
  exact absurd this hK

/-- C2: `Play` calls the owner's `OnBufferProcessed` once when it returns true
and not at all otherwise; it returns true exactly when the buffer's samples
were written to the device, that is, when its events hold the accepted
`GetBuffer` for `samples / channels` frames, the copy of `4 * samples` bytes and
the commit `ReleaseBuffer`; then these follow a load of the state Playing and
are followed by the two releases and the call of the owner, with which the run
ends. Any accepted `GetBuffer`, any copy and any `ReleaseBuffer` in a run makes
it return true; a run in which the device declined `GetBuffer` returns false. -/
theorem Play_notifies_iff_written (fuel : Nat) (p : Platform) (b : Buffer) (s : Session)
    (log : List Event) :
    (Play fuel p b s log).log = log ++ newEvents log (Play fuel p b s log).log ∧
    notifications (newEvents log (Play fuel p b s log).log) =
      (if (Play fuel p b s log).outcome = Outcome.returned true then 1 else 0) ∧
    ((Play fuel p b s log).outcome = Outcome.returned true ↔
      ∃ pre sink rc post, newEvents log (Play fuel p b s log).log = pre ++
        [Event.GetBuffer sink (toUINT32 b.Samples / toUINT32 b.Channels) true,
         Event.Memcpy (4 * toUINT32 b.Samples),
         Event.ReleaseBuffer rc (toUINT32 b.Samples / toUINT32 b.Channels)] ++ post) ∧
    ((Play fuel p b s log).outcome = Outcome.returned true →
      ∃ pre sink rc ac, newEvents log (Play fuel p b s log).log = pre ++
        [Event.LoadState StatePlaying,
         Event.GetBuffer sink (toUINT32 b.Samples / toUINT32 b.Channels) true,
         Event.Memcpy (4 * toUINT32 b.Samples),
         Event.ReleaseBuffer rc (toUINT32 b.Samples / toUINT32 b.Channels),
         Event.Release rc, Event.Release ac, Event.OnBufferProcessed b]) ∧
    (∀ sink n, Event.GetBuffer sink n true ∈ newEvents log (Play fuel p b s log).log →
      (Play fuel p b s log).outcome = Outcome.returned true) ∧
    (∀ k, Event.Memcpy k ∈ newEvents log (Play fuel p b s log).log →
      (Play fuel p b s log).outcome = Outcome.returned true) ∧
    (∀ sink n, Event.ReleaseBuffer sink n ∈ newEvents log (Play fuel p b s log).log →
      (Play fuel p b s log).outcome = Outcome.returned true) ∧
    (∀ sink n, Event.GetBuffer sink n false ∈ newEvents log (Play fuel p b s log).log →
      (Play fuel p b s log).outcome = Outcome.returned false) := by
  rcases Play_shape fuel p b s log with ⟨h1, _, h3⟩ | ⟨_, _, rc, ac, _, _, e⟩
  · exact quiet_run b h3 (by simp) h1 (no_write h3 (by simp))
  · rw [e]
    have c1 := (Configure_spec p b s log).1
    generalize (Configure p b s log).session = cs at *
    generalize (Configure p b s log).log = cl at *
    have hl2 : Extends [Kind.acquire, Kind.probe, Kind.init, Kind.service, Kind.start,
        Kind.volume, Kind.addref, Kind.poll, Kind.sleep, Kind.load]
        log (cl ++ [Event.AddRef rc, Event.AddRef ac]) :=
      Extends.trans (Extends.mono c1 (by simp)) (Extends.append _ _ (by simp [Event.kind]))
    have hw := (waitLoop_extends p b ac fuel cs (cl ++ [Event.AddRef rc, Event.AddRef ac])).1
    rcases deliver_shape fuel p b rc ac cs (cl ++ [Event.AddRef rc, Event.AddRef ac]) with
      ⟨_, e⟩ | ⟨_, ho, e⟩ | ⟨_, _, e⟩ <;> rw [e]
    · exact quiet_run b hl2 (by simp) (by simp) (no_write hl2 (by simp))
    · have hx := Extends.trans hl2 (Extends.mono hw (by simp))
      refine quiet_run b hx (by simp) ?_ (no_write hx (by simp))
      rcases ho with ho | ho <;> simp [ho]
    · generalize waitLoop p b ac fuel cs (cl ++ [Event.AddRef rc, Event.AddRef ac]) = w at *
      have hlw : Extends [Kind.acquire, Kind.probe, Kind.init, Kind.service, Kind.start,
          Kind.volume, Kind.addref, Kind.poll, Kind.sleep, Kind.load] log w.log :=
        Extends.trans hl2 (Extends.mono hw (by simp))
      obtain ⟨f1, _, f3, f4⟩ := finish_spec p b rc ac w
      obtain ⟨X, eX, hX⟩ := hlw
      have hXw : ∀ x ∈ X, x.kind ≠ Kind.write := by
        intro x hx hk
        have := hX x hx
        rw [hk] at this
        simp at this
      by_cases ht : (finish p b rc ac w).outcome = Outcome.returned true
      · obtain ⟨_, sink, ef⟩ := f3 ht
        have en : newEvents log (finish p b rc ac w).log = X ++
            [Event.LoadState StatePlaying,
             Event.GetBuffer sink (toUINT32 b.Samples / toUINT32 b.Channels) true,
             Event.Memcpy (4 * toUINT32 b.Samples),
             Event.ReleaseBuffer rc (toUINT32 b.Samples / toUINT32 b.Channels),
             Event.Release rc, Event.Release ac, Event.OnBufferProcessed b] := by
          rw [ef, eX, List.append_assoc, newEvents_append]
          rfl
        have hXn : notifications X = 0 :=
          notifications_zero fun x hx hk => by
            have := hX x hx
            rw [hk] at this
            simp at this
        refine ⟨?_, ?_, ?_, ?_, fun _ _ _ => ht, fun _ _ => ht, fun _ _ _ => ht, ?_⟩
        · rw [en, ef, eX, List.append_assoc]
          rfl
        · rw [en, notifications_append, hXn, if_pos ht]
          simp [notifications, Event.kind]
        · refine ⟨fun _ => ⟨X ++ [Event.LoadState StatePlaying], sink, rc,
            [Event.Release rc, Event.Release ac, Event.OnBufferProcessed b], ?_⟩,
            fun _ => ht⟩
          rw [en]; simp
        · intro _
          exact ⟨X, sink, rc, ac, en⟩
        · intro sink2 n hm
          rw [en] at hm
          simp only [List.mem_append, List.mem_cons, List.mem_singleton,
            List.not_mem_nil, or_false] at hm
          rcases hm with hm | hm
          · exact absurd rfl (hXw _ hm)
          · simp at hm
      · rcases f4 ht with ⟨st, ef, ho⟩ | ⟨st, ef, ho, _⟩ | ⟨sink, ef, ho, _⟩
        · have hx : Extends [Kind.acquire, Kind.probe, Kind.init, Kind.service,
              Kind.start, Kind.volume, Kind.addref, Kind.poll, Kind.sleep, Kind.load]
              log (finish p b rc ac w).log := by
            rw [ef]
            exact Extends.snoc _ ⟨X, eX, hX⟩ (by simp [Event.kind])
          exact quiet_run b hx (by simp) ht (no_write hx (by simp))
        · have hx : Extends [Kind.acquire, Kind.probe, Kind.init, Kind.service,
              Kind.start, Kind.volume, Kind.addref, Kind.poll, Kind.sleep, Kind.load,
              Kind.release] log (finish p b rc ac w).log := by
            rw [ef]
            exact Extends.trans (Extends.mono ⟨X, eX, hX⟩ (by simp))
              (Extends.append _ _ (by simp [Event.kind]))
          exact quiet_run b hx (by simp) ht (no_write hx (by simp))
        · have hx : Extends [Kind.acquire, Kind.probe, Kind.init, Kind.service,
              Kind.start, Kind.volume, Kind.addref, Kind.poll, Kind.sleep, Kind.load,
              Kind.release, Kind.write] log (finish p b rc ac w).log := by
            rw [ef]
            exact Extends.trans (Extends.mono ⟨X, eX, hX⟩ (by simp))
              (Extends.append _ _ (by simp [Event.kind]))
          refine quiet_run b hx (by simp) ht ?_
          intro e he hk
          have en : newEvents log (finish p b rc ac w).log = X ++
              [Event.LoadState StatePlaying, Event.GetBuffer sink (framesToWrite b) false,
               Event.Release rc, Event.Release ac] := by
            rw [ef, eX, List.append_assoc, newEvents_append]
          rw [en] at he
          simp only [List.mem_append, List.mem_cons, List.mem_singleton,
            List.not_mem_nil, or_false] at he
          rcases he with he | rfl | rfl | rfl | rfl
          · exact absurd hk (hXw _ he)
          · simp [Event.kind] at hk
          · exact ⟨ho, sink, framesToWrite b, rfl⟩
          · simp [Event.kind] at hk
          · simp [Event.kind] at hk

/-- An instance of `Play_notifies_iff_written`: the first `Play` on `okPlatform`
returns true, calls the owner once, and its events hold the accepted `GetBuffer`
for 256 frames, the copy of 2048 bytes and the commit. -/
theorem Play_notifies_iff_written_witness :
    (Play 1 okPlatform stereo new []).outcome = Outcome.returned true ∧
    notifications (newEvents [] (Play 1 okPlatform stereo new []).log) = 1 ∧
    (∃ pre sink rc post, newEvents [] (Play 1 okPlatform stereo new []).log = pre ++
      [Event.GetBuffer sink 256 true, Event.Memcpy 2048, Event.ReleaseBuffer rc 256]
        ++ post) :=
  have h := Play_notifies_iff_written 1 okPlatform stereo new []
  have ho : (Play 1 okPlatform stereo new []).outcome = Outcome.returned true := by decide
  ⟨ho, by rw [h.2.1, if_pos ho], h.2.2.1.mp ho⟩

theorem owned_refl (ac : Nat) (log : List Event) : Owned ac log log :=
  ⟨[], by simp, by simp⟩

theorem owned_append (ac : Nat) (log new : List Event)
    (h : ∀ e ∈ new, ∀ c, e.client = some c → c = ac) : Owned ac log (log ++ new) :=
  ⟨new, rfl, h⟩

theorem owned_trans {ac : Nat} {a b c : List Event}
    (h1 : Owned ac a b) (h2 : Owned ac b c) : Owned ac a c := by
  obtain ⟨x, rfl, hx⟩ := h1
  obtain ⟨y, rfl, hy⟩ := h2
  refine ⟨x ++ y, by simp, ?_⟩
  intro e he
  rcases List.mem_append.1 he with he | he
  · exact hx e he
  · exact hy e he

theorem owned_newEvents {ac : Nat} {a b : List Event} (h : Owned ac a b) :
    ∀ e ∈ newEvents a b, ∀ c, e.client = some c → c = ac := by
  obtain ⟨x, rfl, hx⟩ := h
  rw [newEvents_append]
  exact hx

/-- The events of these kinds are not calls on a Streaming Client. -/
theorem client_none_of_kind (e : Event)
    (h : e.kind ∈ [Kind.acquire, Kind.volume, Kind.addref, Kind.release, Kind.sleep,
      Kind.load, Kind.write, Kind.notify]) : e.client = none := by
  cases e <;> first | rfl | (simp [Event.kind] at h)

theorem owned_of_extends {K : List Kind} (ac : Nat) {a b : List Event}
    (hK : ∀ k ∈ K, k ∈ [Kind.acquire, Kind.volume, Kind.addref, Kind.release, Kind.sleep,
      Kind.load, Kind.write, Kind.notify]) (h : Extends K a b) : Owned ac a b := by
  obtain ⟨x, e, hx⟩ := h
  refine ⟨x, e, ?_⟩
  intro y hy c hc
  rw [client_none_of_kind y (hK _ (hx y hy))] at hc
  cases hc

theorem andThen_owned {ac : Nat} {log : List Event} (r : Result)
    (k : Session → List Event → Result)
    (h1 : Owned ac log r.log) (h2 : Owned ac r.log (k r.session r.log).log) :
    Owned ac log (r.andThen k).log := by
  unfold Result.andThen
  split
  · exact owned_trans h1 h2
  · exact h1

theorem initializeClient_owned (p : Platform) (b : Buffer) (s : Session) (log : List Event)
    (ac : Nat) (h : s.audioClient = some ac) :
    Owned ac log (initializeClient p b s log).log := by
  simp only [initializeClient, h]
  split_ifs <;> simp only [List.append_assoc] <;>
    exact owned_append _ _ _ (by simp [Event.client])

theorem acquireServices_owned (p : Platform) (s : Session) (log : List Event)
    (ac : Nat) (h : s.audioClient = some ac) :
    Owned ac log (acquireServices p s log).log := by
  simp only [acquireServices, h]
  split_ifs <;> simp only [List.append_assoc] <;>
    exact owned_append _ _ _ (by simp [Event.client])

theorem startClient_owned (p : Platform) (s : Session) (log : List Event)
    (ac : Nat) (h : s.audioClient = some ac) :
    Owned ac log (startClient p s log).log := by
  simp only [startClient, h]
  split
  · exact owned_append _ _ _ (by simp [Event.client])
  · exact owned_trans (owned_append ac log [Event.Start ac (p.hresult log.length)]
      (by simp [Event.client]))
      (owned_of_extends ac (by simp) (SetVolume_extends _ _ _ _))

theorem reconfigure_owned (p : Platform) (b : Buffer) (s : Session) (log : List Event)
    (ac : Nat) (h : s.audioClient = some ac) :
    Owned ac log (reconfigure p b s log).log := by
  unfold reconfigure
  have hi : (initializeClient p b s log).session.audioClient = some ac := by
    rw [(initializeClient_spec p b s log ac h).2.2.2.2.2.2.2.1]
    exact h
  refine andThen_owned _ _ (initializeClient_owned p b s log ac h) ?_
  beta_reduce
  refine andThen_owned _ _ (acquireServices_owned p _ _ ac hi) ?_
  beta_reduce
  exact startClient_owned p _ _ ac
    (by rw [(acquireServices_spec p _ _ ac hi).2.2.2.2.2.1]; exact hi)

/-- With a client held, `Configure` calls no other client and keeps it. -/
theorem Configure_owned (p : Platform) (b : Buffer) (s : Session) (log : List Event)
    (ac : Nat) (h : s.audioClient = some ac) :
    Owned ac log (Configure p b s log).log ∧
    (Configure p b s log).session.audioClient = some ac := by
  cases hm : formatMatches s.waveFormat b with
  | true =>
    rw [Configure_fast p b s log ac h hm]
    exact ⟨owned_refl _ _, h⟩
  | false =>
    rw [Configure_slow p b s log ac h hm]
    refine ⟨reconfigure_owned p b s log ac h, ?_⟩
    rw [(reconfigure_spec p b s log ac h).2.2.2.2.2.2.2.2.1]
    exact h

theorem releaseOf_client (h : Option Nat) : ∀ e ∈ releaseOf h, ∀ c : Nat,
    e.client = some c → False := by
  intro e he c hc
  cases h with
  | none => simp [releaseOf] at he
  | some x =>
    simp [releaseOf] at he
    rw [he] at hc
    simp [Event.client] at hc

theorem Reset_owned (s : Session) (log : List Event) (ac : Nat)
    (h : s.audioClient = some ac) : Owned ac log (Reset s log).2 := by
  have r : ∀ (x : Option Nat) (l : List Event), Owned ac l (l ++ releaseOf x) :=
    fun x l => owned_append ac l _ fun e he c hc => (releaseOf_client x e he c hc).elim
  have h0 : Owned ac log (log ++ stopReleaseOf s.audioClient) := by
    rw [h]
    exact owned_append _ _ _ (by simp [stopReleaseOf, Event.client])
  exact owned_trans (owned_trans (owned_trans (owned_trans (owned_trans
    (owned_trans h0 (r _ _)) (r _ _)) (r _ _)) (r _ _)) (r _ _)) (r _ _)

theorem waitLoop_owned (p : Platform) (b : Buffer) (ac : Nat) (fuel : Nat)
    (s : Session) (log : List Event) : Owned ac log (waitLoop p b ac fuel s log).log := by
  obtain ⟨W, eW, hW⟩ := (waitLoop_extends p b ac fuel s log).1
  refine ⟨W, eW, ?_⟩
  intro e he c hc
  have hk := hW e he
  cases e with
  | GetCurrentPadding a q =>
    simp [Event.client] at hc
    rw [← hc]
    exact (waitLoop_polls p b ac fuel s log W eW a q he).1
  | _ => first | (simp [Event.client] at hc; done) | (simp [Event.kind] at hk)

theorem deliver_owned (fuel : Nat) (p : Platform) (b : Buffer) (rc ac : Nat)
    (s : Session) (log : List Event) : Owned ac log (deliver fuel p b rc ac s log).log := by
  have hw := waitLoop_owned p b ac fuel s log
  rcases deliver_shape fuel p b rc ac s log with ⟨_, e⟩ | ⟨_, _, e⟩ | ⟨_, _, e⟩ <;> rw [e]
  · exact owned_refl _ _
  · exact hw
  · exact owned_trans hw (owned_of_extends ac (by simp) (finish_extends p b rc ac _))

/-- A run of `deliver` that returns kept the client and polled it. -/
theorem deliver_returned (fuel : Nat) (p : Platform) (b : Buffer) (rc ac : Nat)
    (s : Session) (log : List Event) (v : Bool)
    (h : (deliver fuel p b rc ac s log).outcome = Outcome.returned v) :
    (deliver fuel p b rc ac s log).session.audioClient = s.audioClient ∧
    ∃ q rest, (deliver fuel p b rc ac s log).log =
      log ++ Event.GetCurrentPadding ac q :: rest := by
  rcases deliver_shape fuel p b rc ac s log with ⟨_, e⟩ | ⟨_, ho, e⟩ | ⟨_, _, e⟩
  · rw [e] at h; simp at h
  · rw [e] at h
    rcases ho with ho | ho <;> simp [ho] at h
  · rw [e]
    have f2 := (finish_spec p b rc ac (waitLoop p b ac fuel s log)).2.1
    have w2 := (waitLoop_extends p b ac fuel s log).2
    obtain ⟨F, eF, _⟩ := finish_extends p b rc ac (waitLoop p b ac fuel s log)
    refine ⟨by rw [f2]; simp only; rw [w2], ?_⟩
    rcases waitLoop_first p b ac fuel s log with ⟨_, hpend⟩ | ⟨q, rest, ew⟩
    · rw [e] at h
      obtain ⟨u, hu⟩ := ‹∃ v, (waitLoop p b ac fuel s log).outcome = Outcome.returned v›
      rw [hpend] at hu
      cases hu
    · exact ⟨q, rest ++ F, by rw [eF, ew]; simp⟩

/-- A `Play` on a session that holds the client `ac` and is not paused makes
calls on no other client; when it returns it has either failed to configure,
released `ac` and left the session without a client, or kept `ac`, taken a
reference on it and polled it. -/
theorem Play_reuses (fuel : Nat) (p : Platform) (b : Buffer) (s : Session) (log : List Event)
    (ac : Nat) (h : s.audioClient = some ac) (hp : s.state ≠ StatePaused) :
    Owned ac log (Play fuel p b s log).log ∧
    ∀ v, (Play fuel p b s log).outcome = Outcome.returned v →
      ((Configure p b s log).outcome = Outcome.returned false ∧ v = false ∧
        (Play fuel p b s log).session.audioClient = none ∧
        Event.Release ac ∈ newEvents log (Play fuel p b s log).log) ∨
      ((Configure p b s log).outcome = Outcome.returned true ∧
        (Play fuel p b s log).session.audioClient = some ac ∧
        Event.AddRef ac ∈ newEvents log (Play fuel p b s log).log ∧
        ∃ q, Event.GetCurrentPadding ac q ∈ newEvents log (Play fuel p b s log).log) := by
  obtain ⟨co, ca⟩ := Configure_owned p b s log ac h
  unfold Play
  rw [if_neg hp]
  generalize Configure p b s log = c at *
  rcases c with ⟨o, cs, cl⟩
  simp only at co ca
  cases o with
  | returned v =>
    cases v with
    | false =>
      simp only
      refine ⟨owned_trans co (Reset_owned cs cl ac ca), ?_⟩
      intro v hv
      left
      refine ⟨trivial, ?_, rfl, ?_⟩
      · simpa using hv.symm
      · obtain ⟨X, rfl, _⟩ := co
        simp only [Reset, ca, stopReleaseOf, List.append_assoc, newEvents_append]
        simp
    | true =>
      simp only
      cases hr : cs.renderClient with
      | none => exact ⟨co, fun v hv => by simp at hv⟩
      | some rc =>
        simp only [ca]
        have hl : Owned ac log (cl ++ [Event.AddRef rc, Event.AddRef ac]) :=
          owned_trans co (owned_append _ _ _ (by simp [Event.client]))
        refine ⟨owned_trans hl (deliver_owned fuel p b rc ac cs _), ?_⟩
        intro v hv
        right
        obtain ⟨d1, q, rest, d2⟩ := deliver_returned fuel p b rc ac cs _ v hv
        obtain ⟨X, rfl, _⟩ := co
        refine ⟨trivial, by rw [d1]; exact ca, ?_, q, ?_⟩ <;>
          · rw [d2]
            simp only [List.append_assoc, newEvents_append]
            simp
  | crashed => exact ⟨co, fun v hv => by simp at hv⟩
  | pending => exact ⟨co, fun v hv => by simp at hv⟩

/-- C9, as amended: `Stop()` sets the transport state to Stopped and leaves
every handle and the stored format as they were; when a Streaming Client is
held it is stopped, reset and started again and nothing else is done, and when
none is held `Stop()` performs no device operation. A subsequent `Play` of any
buffer then makes no enumerator, endpoint or activation call and reuses the
client held before `Stop()`: every call it makes on a Streaming Client is made
on that client, `Configure` leaves it as the session's client, and a `Play`
that returns has either failed to configure, released that client and left the
session without one, or kept that client, taken a reference on it and polled
it. -/
theorem Stop_keeps_handles (fuel : Nat) (p : Platform) (b : Buffer) (s : Session)
    (log : List Event) :
    (Stop p s log).1 = { s with state := StateStopped } ∧
    (s.audioClient = none → (Stop p s log).2 = log) ∧
    ∀ ac, s.audioClient = some ac →
      (Stop p s log).2 = log ++
        [Event.Stop ac, Event.Reset ac, Event.Start ac (p.hresult (log.length + 2))] ∧
      (Play fuel p b (Stop p s log).1 (Stop p s log).2).log = (Stop p s log).2 ++
        newEvents (Stop p s log).2 (Play fuel p b (Stop p s log).1 (Stop p s log).2).log ∧
      (∀ e ∈ newEvents (Stop p s log).2 (Play fuel p b (Stop p s log).1 (Stop p s log).2).log,
        e.kind ≠ Kind.acquire) ∧
      (∀ e ∈ newEvents (Stop p s log).2 (Play fuel p b (Stop p s log).1 (Stop p s log).2).log,
        ∀ c, e.client = some c → c = ac) ∧
      (Configure p b (Stop p s log).1 (Stop p s log).2).session.audioClient = some ac ∧
      ∀ v, (Play fuel p b (Stop p s log).1 (Stop p s log).2).outcome = Outcome.returned v →
        ((Configure p b (Stop p s log).1 (Stop p s log).2).outcome = Outcome.returned false ∧
          v = false ∧
          (Play fuel p b (Stop p s log).1 (Stop p s log).2).session.audioClient = none ∧
          Event.Release ac ∈ newEvents (Stop p s log).2
            (Play fuel p b (Stop p s log).1 (Stop p s log).2).log) ∨
        ((Configure p b (Stop p s log).1 (Stop p s log).2).outcome = Outcome.returned true ∧
          (Play fuel p b (Stop p s log).1 (Stop p s log).2).session.audioClient = some ac ∧
          Event.AddRef ac ∈ newEvents (Stop p s log).2
            (Play fuel p b (Stop p s log).1 (Stop p s log).2).log ∧
          ∃ q, Event.GetCurrentPadding ac q ∈ newEvents (Stop p s log).2
            (Play fuel p b (Stop p s log).1 (Stop p s log).2).log) := by
  refine ⟨Stop_session p s log, ?_, ?_⟩
  · intro h
    simp [Stop, h]
  · intro ac h
    refine ⟨by simp [Stop, h], ?_⟩
    have hc : (Stop p s log).1.audioClient = some ac := by rw [Stop_session]; exact h
    have hs : (Stop p s log).1.state ≠ StatePaused := by rw [Stop_session]; simp
    have hx := (Play_extends fuel p b (Stop p s log).1 (Stop p s log).2 _
      (Configure_extends_of_client p b _ _ ac hc)).newEvents
    have hr := Play_reuses fuel p b (Stop p s log).1 (Stop p s log).2 ac hc hs
    refine ⟨hx.1, ?_, owned_newEvents hr.1, (Configure_owned p b _ _ ac hc).2, hr.2⟩
    intro e he hk
    have := hx.2 e he
    rw [hk] at this
    simp at this

/-- An instance of `Stop_keeps_handles`: `Stop` after the first `Play` on
`okPlatform`, then a `Play` of the buffer `mono`, whose format differs from the
stored one: the run returns true, every call on a client is a call on the
client 103 held before `Stop`, among them the `Initialize` with the format of
`mono`, and 103 is still the session's client. -/
theorem Stop_keeps_handles_witness :
    firstPlay.session.audioClient = some 103 ∧
    afterStop.2 = firstPlay.log ++
      [Event.Stop 103, Event.Reset 103, Event.Start 103 true] ∧
    (Play 1 okPlatform mono afterStop.1 afterStop.2).outcome = Outcome.returned true ∧
    (∀ e ∈ newEvents afterStop.2 (Play 1 okPlatform mono afterStop.1 afterStop.2).log,
      ∀ c, e.client = some c → c = 103) ∧
    Event.Initialize 103 0 (hundredNanos mono) (formatOf mono) true ∈
      newEvents afterStop.2 (Play 1 okPlatform mono afterStop.1 afterStop.2).log ∧
    (Play 1 okPlatform mono afterStop.1 afterStop.2).session.audioClient = some 103 ∧
    Event.AddRef 103 ∈
      newEvents afterStop.2 (Play 1 okPlatform mono afterStop.1 afterStop.2).log ∧
    ∃ q, Event.GetCurrentPadding 103 q ∈
      newEvents afterStop.2 (Play 1 okPlatform mono afterStop.1 afterStop.2).log :=
  have h := (Stop_keeps_handles 1 okPlatform mono firstPlay.session firstPlay.log).2.2 103
    (by decide)
  have ho : (Play 1 okPlatform mono afterStop.1 afterStop.2).outcome =
      Outcome.returned true := by decide
  ⟨by decide, h.1, ho, h.2.2.2.1, by decide,
    ((h.2.2.2.2.2 true ho).resolve_left fun c => Bool.noConfusion c.2.1).2⟩

/-- C9, the claim as stated fails: after the first `Play` on `okPlatform`,
`Stop()` leaves the Streaming Client, the Render Sink and the stored format in
place, and the next `Play` makes no acquisition call and keeps the client. -/
theorem Stop_not_initial_state :
    afterStop.1.state = StateStopped ∧
    afterStop.1.audioClient = some 103 ∧
    afterStop.1.renderClient = some 107 ∧
    afterStop.1.waveFormat ≠ zeroFormat ∧
    afterStop.1 ≠ new ∧
    (newEvents afterStop.2 (Play 1 okPlatform stereo afterStop.1 afterStop.2).log).all
      (fun e => decide (e.kind ≠ Kind.acquire)) = true ∧
    (newEvents afterStop.2 (Play 1 okPlatform mono afterStop.1 afterStop.2).log).all
      (fun e => decide (e.kind ≠ Kind.acquire)) = true ∧
    (Play 1 okPlatform stereo afterStop.1 afterStop.2).session.audioClient = some 103 ∧
    (Play 1 okPlatform mono afterStop.1 afterStop.2).session.audioClient = some 103 := by
  decide

end WasapiOut
